import Mathlib

/-
Verification of the request-execution and streaming-decode engine of the
anthropic-rs client library (src/anthropic/src/client.rs, error.rs, types.rs).

The development shallowly embeds the library:
- JSON values are an inductive `Json`; the serde_json text parser is modelled
  by an executable fuel-based parser over characters, and byte-level inputs
  (`serde_json::from_slice`) go through a strict UTF-8 decoder first.
- Rust `f64` is modelled by `F64`, keeping exactly what serde_json and
  `PartialEq` observe: a finite value (serde_json round-trips finite doubles
  exactly), or a non-finite value (NaN and the infinities), which serde_json
  serializes as `null`.
- serde `Serialize`/`Deserialize` derives of the library's record types are
  translated field by field (tag fields, `rename_all = "snake_case"`,
  `skip_serializing_if = "Option::is_none"`, `#[serde(default)]`, untagged
  unions trying variants in order, unknown fields ignored).
- `Client::execute`'s retry loop, `parse_error`, `Client::messages`'
  validation, and the SSE pump task spawned by `stream` are modelled as pure
  functions; the transport is a function from attempt index to attempt
  outcome, the backoff policy is the (finite) list of sleeps it would grant,
  and the consumer side of the unbounded channel is the number of sends that
  succeed before the receiver is dropped.
-/

namespace AnthropicRs

/-- JSON numbers as serde_json distinguishes them: an integer (i64/u64) or a
floating-point value. Finite doubles are kept exactly as rationals. -/
inductive JsonNum where
  | int (i : Int)
  | float (q : Rat)

/-- JSON values: the model of serde_json::Value. Objects keep field order as a
list of pairs; lookups take the first binding, as serde field access does. -/
inductive Json where
  | null
  | bool (b : Bool)
  | num (n : JsonNum)
  | str (s : String)
  | arr (elems : List Json)
  | obj (fields : List (String × Json))

/-- First binding of a key in a JSON object's field list. -/
def jget : List (String × Json) → String → Option Json
  | [], _ => none
  | (k, v) :: rest, key => if k = key then some v else jget rest key

mutual

/-- Size of a JSON value, used as fuel for deserializers of recursive
types: every strict subvalue has strictly smaller size. -/
def jsonSize : Json → Nat
  | .null => 1
  | .bool _ => 1
  | .num _ => 1
  | .str _ => 1
  | .arr es => 1 + jsonListSize es
  | .obj fs => 1 + jsonFieldsSize fs

/-- Size of a list of JSON values. -/
def jsonListSize : List Json → Nat
  | [] => 0
  | j :: js => 1 + jsonSize j + jsonListSize js

/-- Size of a JSON object's field list. -/
def jsonFieldsSize : List (String × Json) → Nat
  | [] => 0
  | (_, v) :: fs => 1 + jsonSize v + jsonFieldsSize fs

end

/-- Model of Rust f64 as far as serde_json serialization and equality observe
it: a finite double (kept exactly, as serde_json round-trips finite values
exactly via ryu/grisu), or NaN or an infinity, all of which serde_json
serializes as JSON null. -/
inductive F64 where
  | finite (q : Rat)
  | nan
  | inf
  | negInf

/-- Whether an F64 value is finite (serializable as a JSON number). -/
def F64.isFinite : F64 → Bool
  | .finite _ => true
  | _ => false

/-- Rust u32, as the bounded naturals below 2^32. -/
abbrev U32 := Fin 4294967296

/-- Rust usize on 64-bit targets, as the bounded naturals below 2^64. -/
abbrev Usize := Fin 18446744073709551616

/-- Strict UTF-8 decoding of a byte sequence, rejecting truncated sequences,
stray continuation bytes, overlong encodings, surrogates and out-of-range
code points; this is the validation serde_json applies to input text. -/
def utf8Decode : List Nat → Option (List Char)
  | [] => some []
  | b :: rest =>
    if b < 0x80 then
      (utf8Decode rest).map (Char.ofNat b :: ·)
    else if b < 0xC2 then
      none
    else if b < 0xE0 then
      match rest with
      | b2 :: rest2 =>
        if 0x80 ≤ b2 ∧ b2 < 0xC0 then
          (utf8Decode rest2).map (Char.ofNat ((b - 0xC0) * 64 + (b2 - 0x80)) :: ·)
        else none
      | [] => none
    else if b < 0xF0 then
      match rest with
      | b2 :: b3 :: rest3 =>
        if 0x80 ≤ b2 ∧ b2 < 0xC0 ∧ 0x80 ≤ b3 ∧ b3 < 0xC0 then
          let cp := (b - 0xE0) * 4096 + (b2 - 0x80) * 64 + (b3 - 0x80)
          if cp < 0x800 ∨ (0xD800 ≤ cp ∧ cp < 0xE000) then none
          else (utf8Decode rest3).map (Char.ofNat cp :: ·)
        else none
      | _ => none
    else if b < 0xF5 then
      match rest with
      | b2 :: b3 :: b4 :: rest4 =>
        if 0x80 ≤ b2 ∧ b2 < 0xC0 ∧ 0x80 ≤ b3 ∧ b3 < 0xC0 ∧ 0x80 ≤ b4 ∧ b4 < 0xC0 then
          let cp := (b - 0xF0) * 262144 + (b2 - 0x80) * 4096 + (b3 - 0x80) * 64 + (b4 - 0x80)
          if cp < 0x10000 ∨ 0x10FFFF < cp then none
          else (utf8Decode rest4).map (Char.ofNat cp :: ·)
        else none
      | _ => none
    else none

/-- The Unicode replacement character U+FFFD. -/
def replacementChar : Char := Char.ofNat 0xFFFD

/-- Lossy UTF-8 decoding, fuelled so the recursion is structural: each step
consumes at least one byte, so fuel one larger than the byte count never runs
out. Valid sequences decode as usual; an invalid byte becomes U+FFFD and
decoding continues, so the function is total on arbitrary bytes. -/
def utf8LossyF : Nat → List Nat → List Char
  | 0, _ => []
  | _, [] => []
  | fuel + 1, b :: rest =>
    if b < 0x80 then Char.ofNat b :: utf8LossyF fuel rest
    else if b < 0xC2 then replacementChar :: utf8LossyF fuel rest
    else if b < 0xE0 then
      match rest with
      | b2 :: rest2 =>
        if 0x80 ≤ b2 ∧ b2 < 0xC0 then
          Char.ofNat ((b - 0xC0) * 64 + (b2 - 0x80)) :: utf8LossyF fuel rest2
        else replacementChar :: utf8LossyF fuel rest
      | [] => [replacementChar]
    else if b < 0xF0 then
      match rest with
      | b2 :: b3 :: rest3 =>
        if 0x80 ≤ b2 ∧ b2 < 0xC0 ∧ 0x80 ≤ b3 ∧ b3 < 0xC0 then
          let cp := (b - 0xE0) * 4096 + (b2 - 0x80) * 64 + (b3 - 0x80)
          if cp < 0x800 ∨ (0xD800 ≤ cp ∧ cp < 0xE000) then replacementChar :: utf8LossyF fuel rest
          else Char.ofNat cp :: utf8LossyF fuel rest3
        else replacementChar :: utf8LossyF fuel rest
      | _ => replacementChar :: utf8LossyF fuel rest
    else if b < 0xF5 then
      match rest with
      | b2 :: b3 :: b4 :: rest4 =>
        if 0x80 ≤ b2 ∧ b2 < 0xC0 ∧ 0x80 ≤ b3 ∧ b3 < 0xC0 ∧ 0x80 ≤ b4 ∧ b4 < 0xC0 then
          let cp := (b - 0xF0) * 262144 + (b2 - 0x80) * 4096 + (b3 - 0x80) * 64 + (b4 - 0x80)
          if cp < 0x10000 ∨ 0x10FFFF < cp then replacementChar :: utf8LossyF fuel rest
          else Char.ofNat cp :: utf8LossyF fuel rest4
        else replacementChar :: utf8LossyF fuel rest
      | _ => replacementChar :: utf8LossyF fuel rest
    else replacementChar :: utf8LossyF fuel rest

/-- String::from_utf8_lossy on a byte sequence, as a Lean string. -/
def fromUtf8Lossy (bytes : List Nat) : String :=
  String.mk (utf8LossyF (bytes.length + 1) bytes)

/-- Bytes of an ASCII string, used to build concrete request bodies. -/
def asciiBytes (s : String) : List Nat := s.toList.map (·.toNat)

/-- JSON whitespace. -/
def isJsonWs (c : Char) : Bool := c = ' ' ∨ c = '\t' ∨ c = '\n' ∨ c = '\r'

/-- Skip JSON whitespace. -/
def skipWs : List Char → List Char
  | [] => []
  | c :: rest => if isJsonWs c then skipWs rest else c :: rest

/-- Value of a decimal digit. -/
def digitVal (c : Char) : Option Nat :=
  if '0' ≤ c ∧ c ≤ '9' then some (c.toNat - 48) else none

/-- Value of a hexadecimal digit. -/
def hexVal (c : Char) : Option Nat :=
  if '0' ≤ c ∧ c ≤ '9' then some (c.toNat - 48)
  else if 'a' ≤ c ∧ c ≤ 'f' then some (c.toNat - 87)
  else if 'A' ≤ c ∧ c ≤ 'F' then some (c.toNat - 55)
  else none

/-- Longest prefix of decimal digits. -/
def takeDigits : List Char → List Nat × List Char
  | [] => ([], [])
  | c :: rest =>
    match digitVal c with
    | some d => let (ds, r) := takeDigits rest; (d :: ds, r)
    | none => ([], c :: rest)

/-- Digits to a natural number, most significant first. -/
def digitsToNat (ds : List Nat) : Nat := ds.foldl (fun a d => a * 10 + d) 0

/-- Parse the body of a JSON string after the opening quote, returning the
decoded characters and the rest of the input after the closing quote.
Handles the JSON escapes, including surrogate pairs; rejects unescaped
control characters, lone surrogates and unterminated strings. -/
def parseStringBody : List Char → Option (List Char × List Char)
  | [] => none
  | '\"' :: rest => some ([], rest)
  | '\\' :: esc =>
    match esc with
    | 'u' :: a :: b :: c :: d :: rest =>
      match hexVal a, hexVal b, hexVal c, hexVal d with
      | some ha, some hb, some hc, some hd =>
        let cp := ha * 4096 + hb * 256 + hc * 16 + hd
        if 0xD800 ≤ cp ∧ cp < 0xDC00 then
          match rest with
          | '\\' :: 'u' :: e :: f :: g :: h :: rest2 =>
            match hexVal e, hexVal f, hexVal g, hexVal h with
            | some he, some hf, some hg, some hh =>
              let lo := he * 4096 + hf * 256 + hg * 16 + hh
              if 0xDC00 ≤ lo ∧ lo < 0xE000 then
                (parseStringBody rest2).map
                  (fun p => (Char.ofNat (0x10000 + (cp - 0xD800) * 1024 + (lo - 0xDC00)) :: p.1, p.2))
              else none
            | _, _, _, _ => none
          | _ => none
        else if 0xDC00 ≤ cp ∧ cp < 0xE000 then none
        else (parseStringBody rest).map (fun p => (Char.ofNat cp :: p.1, p.2))
      | _, _, _, _ => none
    | e :: rest =>
      let c? : Option Char :=
        if e = '\"' then some '\"'
        else if e = '\\' then some '\\'
        else if e = '/' then some '/'
        else if e = 'b' then some (Char.ofNat 8)
        else if e = 'f' then some (Char.ofNat 12)
        else if e = 'n' then some '\n'
        else if e = 'r' then some '\r'
        else if e = 't' then some '\t'
        else none
      match c? with
      | some c => (parseStringBody rest).map (fun p => (c :: p.1, p.2))
      | none => none
    | [] => none
  | c :: rest =>
    if c.toNat < 0x20 then none
    else (parseStringBody rest).map (fun p => (c :: p.1, p.2))

/-- Optional fractional part of a JSON number. -/
def parseFracPart : List Char → Option (List Nat × List Char)
  | '.' :: rest =>
    match takeDigits rest with
    | ([], _) => none
    | (ds, r) => some (ds, r)
  | l => some ([], l)

/-- Optional exponent part of a JSON number. -/
def parseExpPart : List Char → Option (Option Int × List Char)
  | [] => some (none, [])
  | c :: rest =>
    if c = 'e' ∨ c = 'E' then
      let (eneg, r1) : Bool × List Char :=
        match rest with
        | '+' :: r => (false, r)
        | '-' :: r => (true, r)
        | _ => (false, rest)
      match takeDigits r1 with
      | ([], _) => none
      | (ds, r2) =>
        some (some (if eneg then -(digitsToNat ds : Int) else (digitsToNat ds : Int)), r2)
    else some (none, c :: rest)

/-- Assemble a JSON number from its parts: an integer when there is no
fraction and no exponent, a float otherwise. -/
def mkJsonNum (neg : Bool) (ipart : Nat) (frac : List Nat) (ex : Option Int) : JsonNum :=
  if frac = [] ∧ ex = none then
    .int (if neg then -(ipart : Int) else (ipart : Int))
  else
    let mant : Int := (ipart * 10 ^ frac.length + digitsToNat frac : Nat)
    let mant : Int := if neg then -mant else mant
    let e : Int := (ex.getD 0) - (frac.length : Int)
    .float (if 0 ≤ e then (mant : Rat) * (10 : Rat) ^ e.toNat
            else (mant : Rat) / (10 : Rat) ^ (-e).toNat)

/-- Parse a JSON number, rejecting leading zeros as serde_json does. -/
def parseNumber (l : List Char) : Option (JsonNum × List Char) :=
  let (neg, l1) : Bool × List Char :=
    match l with
    | '-' :: rest => (true, rest)
    | _ => (false, l)
  match takeDigits l1 with
  | ([], _) => none
  | (d :: ds, l2) =>
    if d = 0 ∧ ds ≠ [] then none
    else
      match parseFracPart l2 with
      | none => none
      | some (frac, l3) =>
        match parseExpPart l3 with
        | none => none
        | some (ex, l4) => some (mkJsonNum neg (digitsToNat (d :: ds)) frac ex, l4)

mutual

/-- Parse one JSON value; fuel bounds the nesting of values. -/
def parseValue : Nat → List Char → Option (Json × List Char)
  | 0, _ => none
  | fuel + 1, l =>
    match skipWs l with
    | [] => none
    | 'n' :: 'u' :: 'l' :: 'l' :: rest => some (.null, rest)
    | 't' :: 'r' :: 'u' :: 'e' :: rest => some (.bool true, rest)
    | 'f' :: 'a' :: 'l' :: 's' :: 'e' :: rest => some (.bool false, rest)
    | '\"' :: rest => (parseStringBody rest).map (fun p => (.str (String.mk p.1), p.2))
    | c :: rest =>
      if c = Char.ofNat 0x5b then
        match skipWs rest with
        | c2 :: rest2 =>
          if c2 = Char.ofNat 0x5d then some (.arr [], rest2)
          else (parseElems fuel (c2 :: rest2)).map (fun p => (.arr p.1, p.2))
        | [] => none
      else if c = Char.ofNat 0x7b then
        match skipWs rest with
        | c2 :: rest2 =>
          if c2 = Char.ofNat 0x7d then some (.obj [], rest2)
          else (parseMembers fuel (c2 :: rest2)).map (fun p => (.obj p.1, p.2))
        | [] => none
      else
        (parseNumber (c :: rest)).map (fun p => (.num p.1, p.2))

/-- Parse the elements of a nonempty JSON array, up to and including the
closing bracket. -/
def parseElems : Nat → List Char → Option (List Json × List Char)
  | 0, _ => none
  | fuel + 1, l =>
    match parseValue fuel l with
    | none => none
    | some (v, r) =>
      match skipWs r with
      | c :: rest =>
        if c = ',' then (parseElems fuel rest).map (fun p => (v :: p.1, p.2))
        else if c = Char.ofNat 0x5d then some ([v], rest)
        else none
      | [] => none

/-- Parse the members of a nonempty JSON object, up to and including the
closing brace. -/
def parseMembers : Nat → List Char → Option (List (String × Json) × List Char)
  | 0, _ => none
  | fuel + 1, l =>
    match skipWs l with
    | '\"' :: rest =>
      match parseStringBody rest with
      | none => none
      | some (key, r1) =>
        match skipWs r1 with
        | ':' :: r2 =>
          match parseValue fuel r2 with
          | none => none
          | some (v, r3) =>
            match skipWs r3 with
            | c :: rest2 =>
              if c = ',' then
                (parseMembers fuel rest2).map (fun p => ((String.mk key, v) :: p.1, p.2))
              else if c = Char.ofNat 0x7d then some ([(String.mk key, v)], rest2)
              else none
            | [] => none
        | _ => none
    | _ => none

end

/-- Parse a complete JSON document from characters: one value, optionally
surrounded by whitespace, with nothing after it. The fuel is generous enough
for any input the parser can consume. -/
def jsonParseChars (l : List Char) : Option Json :=
  match parseValue (2 * l.length + 2) l with
  | none => none
  | some (v, rest) => if skipWs rest = [] then some v else none

/-- serde_json::from_str at the level of JSON values: parse a string into a
JSON value. -/
def jsonParse (s : String) : Option Json := jsonParseChars s.toList

/-- serde_json::from_slice at the level of JSON values: the bytes must be
valid UTF-8 and parse as one JSON document. -/
def jsonParseBytes (bytes : List Nat) : Option Json :=
  (utf8Decode bytes).bind (fun cs => jsonParseChars cs)

/-! Domain types of src/anthropic/src/types.rs and error.rs. Rust u32/usize
become Nat (with range checks at decode time); f64 becomes F64;
serde_json::Value becomes Json. Constructor and field names follow the
source. -/

/-- types.rs Role. -/
inductive Role where
  | user
  | assistant

/-- types.rs ImageSource. -/
inductive ImageSource where
  | base64 (media_type : String) (data : String)

mutual

/-- types.rs ContentBlock (internally tagged by the field named type,
variants renamed to snake_case). -/
inductive ContentBlock where
  | text (text : String)
  | image (source : ImageSource)
  | toolUse (id : String) (name : String) (input : Json)
  | toolResult (tool_use_id : String) (is_error : Option Bool) (content : ToolResultContent)
  | thinking (thinking : String)
  | redactedThinking (data : String)

/-- types.rs ToolResultContent (untagged: a plain string or a block list). -/
inductive ToolResultContent where
  | text (s : String)
  | blocks (blocks : List ContentBlock)

end

/-- types.rs Message. -/
structure Message where
  role : Role
  content : List ContentBlock

/-- types.rs SystemPrompt (untagged). -/
inductive SystemPrompt where
  | text (s : String)
  | blocks (bs : List ContentBlock)

/-- types.rs Metadata. -/
structure Metadata where
  user_id : Option String

/-- types.rs Tool. -/
structure Tool where
  name : String
  description : String
  input_schema : Json

/-- types.rs ToolChoice. -/
inductive ToolChoice where
  | auto
  | any
  | tool (name : String)

/-- types.rs ThinkingConfig. -/
inductive ThinkingConfig where
  | enabled (budget_tokens : U32)
  | disabled

/-- types.rs MessagesRequest. -/
structure MessagesRequest where
  model : String
  messages : List Message
  max_tokens : U32
  system : Option SystemPrompt
  metadata : Option Metadata
  stop_sequences : Option (List String)
  temperature : Option F64
  top_p : Option F64
  top_k : Option U32
  stream : Option Bool
  tools : Option (List Tool)
  tool_choice : Option ToolChoice
  thinking : Option ThinkingConfig

/-- types.rs StopReason. -/
inductive StopReason where
  | endTurn
  | maxTokens
  | stopSequence
  | toolUse

/-- types.rs CacheCreation. -/
structure CacheCreation where
  ephemeral_1h_input_tokens : U32
  ephemeral_5m_input_tokens : U32

/-- types.rs Usage. -/
structure Usage where
  input_tokens : U32
  output_tokens : U32
  cache_creation_input_tokens : U32
  cache_read_input_tokens : U32
  cache_creation : CacheCreation
  service_tier : Option String

/-- types.rs MessagesResponse (its Rust field message_type is serialized
under the name type). -/
structure MessagesResponse where
  id : String
  message_type : String
  role : Role
  content : List ContentBlock
  model : String
  stop_reason : Option StopReason
  stop_sequence : Option String
  usage : Usage

/-- types.rs ContentBlockDelta. -/
inductive ContentBlockDelta where
  | textDelta (text : String)
  | inputJsonDelta (partial_json : String)

/-- types.rs MessageDeltaUsage. -/
structure MessageDeltaUsage where
  output_tokens : U32

/-- types.rs MessageDelta. -/
structure MessageDelta where
  stop_reason : Option StopReason
  stop_sequence : Option String

/-- types.rs MessagesStreamEvent. -/
inductive MessagesStreamEvent where
  | messageStart (message : Message)
  | contentBlockStart (index : Usize) (content_block : ContentBlock)
  | contentBlockDelta (index : Usize) (delta : ContentBlockDelta)
  | contentBlockStop (index : Usize)
  | messageDelta (delta : MessageDelta) (usage : MessageDeltaUsage)
  | messageStop

/-- error.rs ApiError (its Rust field error_type is serialized under the
name type; param and code are optional free-form JSON values). -/
structure ApiError where
  message : String
  error_type : String
  param : Option Json
  code : Option Json

/-- error.rs ErrorResponse: the standard error envelope. -/
structure ErrorResponse where
  error : ApiError

/-- error.rs AnthropicError. Payloads of foreign error types (reqwest and
serde_json errors) carry no information the specified behaviour depends on
and are dropped. -/
inductive AnthropicError where
  | http
  | api (e : ApiError)
  | deserialize
  | invalidRequest (msg : String)
  | missingEnvironment (name : String)
  | invalidHeaderValue
  | eventSource
  | eventSourceCannotClone
  | unexpectedResponse (status : Nat) (body : String)

/-! serde Serialize models: each type's derive, written field by field in
declaration order, with the tag field first for internally tagged enums and
optional fields omitted under skip_serializing_if. -/

/-- Fields produced by an Option field marked skip_serializing_if
Option::is_none: absent when None, one binding when Some. -/
def optField (k : String) (enc : α → Json) : Option α → List (String × Json)
  | none => []
  | some v => [(k, enc v)]

/-- Serialization of an Option field without the skip attribute: None
serializes as null. -/
def encOptNull (enc : α → Json) : Option α → Json
  | none => .null
  | some v => enc v

/-- Serialization of f64: serde_json writes finite doubles as numbers and
every non-finite double (NaN, the infinities) as null. -/
def encodeF64 : F64 → Json
  | .finite q => .num (.float q)
  | .nan => .null
  | .inf => .null
  | .negInf => .null

/-- Serialization of Role. -/
def encodeRole : Role → Json
  | .user => .str "user"
  | .assistant => .str "assistant"

/-- Serialization of StopReason. -/
def encodeStopReason : StopReason → Json
  | .endTurn => .str "end_turn"
  | .maxTokens => .str "max_tokens"
  | .stopSequence => .str "stop_sequence"
  | .toolUse => .str "tool_use"

/-- Serialization of ImageSource. -/
def encodeImageSource : ImageSource → Json
  | .base64 mt d => .obj [("type", .str "base64"), ("media_type", .str mt), ("data", .str d)]

mutual

/-- Serialization of ContentBlock. -/
def encodeContentBlock : ContentBlock → Json
  | .text t => .obj [("type", .str "text"), ("text", .str t)]
  | .image s => .obj [("type", .str "image"), ("source", encodeImageSource s)]
  | .toolUse i n inp =>
    .obj [("type", .str "tool_use"), ("id", .str i), ("name", .str n), ("input", inp)]
  | .toolResult tid ie c =>
    .obj ([("type", .str "tool_result"), ("tool_use_id", .str tid)] ++
      optField "is_error" Json.bool ie ++ [("content", encodeToolResultContent c)])
  | .thinking t => .obj [("type", .str "thinking"), ("thinking", .str t)]
  | .redactedThinking d => .obj [("type", .str "redacted_thinking"), ("data", .str d)]

/-- Serialization of ToolResultContent. -/
def encodeToolResultContent : ToolResultContent → Json
  | .text s => .str s
  | .blocks bs => .arr (encodeContentBlockList bs)

/-- Serialization of a content block list. -/
def encodeContentBlockList : List ContentBlock → List Json
  | [] => []
  | b :: bs => encodeContentBlock b :: encodeContentBlockList bs

end

/-- Serialization of Message. -/
def encodeMessage (m : Message) : Json :=
  .obj [("role", encodeRole m.role), ("content", .arr (encodeContentBlockList m.content))]

/-- Serialization of SystemPrompt. -/
def encodeSystemPrompt : SystemPrompt → Json
  | .text s => .str s
  | .blocks bs => .arr (encodeContentBlockList bs)

/-- Serialization of Metadata. -/
def encodeMetadata (m : Metadata) : Json :=
  .obj (optField "user_id" Json.str m.user_id)

/-- Serialization of Tool. -/
def encodeTool (t : Tool) : Json :=
  .obj [("name", .str t.name), ("description", .str t.description),
        ("input_schema", t.input_schema)]

/-- Serialization of ToolChoice. -/
def encodeToolChoice : ToolChoice → Json
  | .auto => .obj [("type", .str "auto")]
  | .any => .obj [("type", .str "any")]
  | .tool n => .obj [("type", .str "tool"), ("name", .str n)]

/-- Serialization of ThinkingConfig. -/
def encodeThinkingConfig : ThinkingConfig → Json
  | .enabled b => .obj [("type", .str "enabled"), ("budget_tokens", .num (.int b.val))]
  | .disabled => .obj [("type", .str "disabled")]

/-- Field list of a serialized MessagesRequest, in declaration order, the
optional fields present only when Some. -/
def messagesRequestFields (r : MessagesRequest) : List (String × Json) :=
  [("model", .str r.model),
   ("messages", .arr (r.messages.map encodeMessage)),
   ("max_tokens", .num (.int r.max_tokens.val))] ++
    optField "system" encodeSystemPrompt r.system ++
    optField "metadata" encodeMetadata r.metadata ++
    optField "stop_sequences" (fun l => .arr (l.map Json.str)) r.stop_sequences ++
    optField "temperature" encodeF64 r.temperature ++
    optField "top_p" encodeF64 r.top_p ++
    optField "top_k" (fun n => .num (.int n.val)) r.top_k ++
    optField "stream" Json.bool r.stream ++
    optField "tools" (fun l => .arr (l.map encodeTool)) r.tools ++
    optField "tool_choice" encodeToolChoice r.tool_choice ++
    optField "thinking" encodeThinkingConfig r.thinking

/-- Serialization of MessagesRequest. -/
def encodeMessagesRequest (r : MessagesRequest) : Json :=
  .obj (messagesRequestFields r)

/-- Serialization of CacheCreation. -/
def encodeCacheCreation (c : CacheCreation) : Json :=
  .obj [("ephemeral_1h_input_tokens", .num (.int c.ephemeral_1h_input_tokens.val)),
        ("ephemeral_5m_input_tokens", .num (.int c.ephemeral_5m_input_tokens.val))]

/-- Field list of a serialized Usage. -/
def usageFields (u : Usage) : List (String × Json) :=
  [("input_tokens", .num (.int u.input_tokens.val)),
   ("output_tokens", .num (.int u.output_tokens.val)),
   ("cache_creation_input_tokens", .num (.int u.cache_creation_input_tokens.val)),
   ("cache_read_input_tokens", .num (.int u.cache_read_input_tokens.val)),
   ("cache_creation", encodeCacheCreation u.cache_creation)] ++
    optField "service_tier" Json.str u.service_tier

/-- Serialization of Usage. -/
def encodeUsage (u : Usage) : Json :=
  .obj (usageFields u)

/-- Serialization of MessagesResponse. -/
def encodeMessagesResponse (r : MessagesResponse) : Json :=
  .obj [("id", .str r.id),
        ("type", .str r.message_type),
        ("role", encodeRole r.role),
        ("content", .arr (encodeContentBlockList r.content)),
        ("model", .str r.model),
        ("stop_reason", encOptNull encodeStopReason r.stop_reason),
        ("stop_sequence", encOptNull Json.str r.stop_sequence),
        ("usage", encodeUsage r.usage)]

/-- Serialization of ContentBlockDelta. -/
def encodeContentBlockDelta : ContentBlockDelta → Json
  | .textDelta t => .obj [("type", .str "text_delta"), ("text", .str t)]
  | .inputJsonDelta p => .obj [("type", .str "input_json_delta"), ("partial_json", .str p)]

/-- Serialization of MessageDeltaUsage. -/
def encodeMessageDeltaUsage (u : MessageDeltaUsage) : Json :=
  .obj [("output_tokens", .num (.int u.output_tokens.val))]

/-- Serialization of MessageDelta. -/
def encodeMessageDelta (d : MessageDelta) : Json :=
  .obj [("stop_reason", encOptNull encodeStopReason d.stop_reason),
        ("stop_sequence", encOptNull Json.str d.stop_sequence)]

/-- Serialization of MessagesStreamEvent. -/
def encodeMessagesStreamEvent : MessagesStreamEvent → Json
  | .messageStart m => .obj [("type", .str "message_start"), ("message", encodeMessage m)]
  | .contentBlockStart i cb =>
    .obj [("type", .str "content_block_start"), ("index", .num (.int i.val)),
          ("content_block", encodeContentBlock cb)]
  | .contentBlockDelta i d =>
    .obj [("type", .str "content_block_delta"), ("index", .num (.int i.val)),
          ("delta", encodeContentBlockDelta d)]
  | .contentBlockStop i => .obj [("type", .str "content_block_stop"), ("index", .num (.int i.val))]
  | .messageDelta d u =>
    .obj [("type", .str "message_delta"), ("delta", encodeMessageDelta d),
          ("usage", encodeMessageDeltaUsage u)]
  | .messageStop => .obj [("type", .str "message_stop")]

/-- Serialization of ApiError. -/
def encodeApiError (e : ApiError) : Json :=
  .obj [("message", .str e.message),
        ("type", .str e.error_type),
        ("param", encOptNull id e.param),
        ("code", encOptNull id e.code)]

/-- Serialization of ErrorResponse. -/
def encodeErrorResponse (e : ErrorResponse) : Json :=
  .obj [("error", encodeApiError e.error)]

/-! serde Deserialize models: field access by name (first binding), unknown
fields ignored, missing Option fields read as None, null read as None for
Option fields, serde(default) fields defaulted when missing. -/

/-- View of a JSON value as an object. -/
def Json.asObj : Json → Option (List (String × Json))
  | .obj kvs => some kvs
  | _ => none

/-- Deserialization of a string. -/
def decodeString : Json → Option String
  | .str s => some s
  | _ => none

/-- Deserialization of a bool. -/
def decodeBool : Json → Option Bool
  | .bool b => some b
  | _ => none

/-- Deserialization of u32: a nonnegative integer JSON number in range. -/
def decodeU32 : Json → Option U32
  | .num (.int (.ofNat n)) => if h : n < 4294967296 then some ⟨n, h⟩ else none
  | _ => none

/-- Deserialization of usize (64-bit): a nonnegative integer JSON number in
range. -/
def decodeUsize : Json → Option Usize
  | .num (.int (.ofNat n)) => if h : n < 18446744073709551616 then some ⟨n, h⟩ else none
  | _ => none

/-- Deserialization of f64: serde accepts both integer and floating JSON
numbers. -/
def decodeF64 : Json → Option F64
  | .num (.int i) => some (.finite (i : Rat))
  | .num (.float q) => some (.finite q)
  | _ => none

/-- Required struct field: look it up and decode it; missing is an error. -/
def reqField (kvs : List (String × Json)) (k : String) (dec : Json → Option α) : Option α :=
  (jget kvs k).bind dec

/-- Option struct field: missing or null reads as None. -/
def optFieldD (kvs : List (String × Json)) (k : String) (dec : Json → Option α) :
    Option (Option α) :=
  match jget kvs k with
  | none => some none
  | some .null => some none
  | some j => (dec j).map some

/-- serde(default) struct field: missing reads as the default. -/
def defField (kvs : List (String × Json)) (k : String) (dec : Json → Option α) (dflt : α) :
    Option α :=
  match jget kvs k with
  | none => some dflt
  | some j => dec j

/-- Deserialization of the elements of a JSON array, elementwise, failing
if any element fails. -/
def decodeElems (dec : Json → Option α) : List Json → Option (List α)
  | [] => some []
  | j :: js =>
    match dec j, decodeElems dec js with
    | some v, some vs => some (v :: vs)
    | _, _ => none

/-- Deserialization of a Vec. -/
def decodeList (dec : Json → Option α) : Json → Option (List α)
  | .arr js => decodeElems dec js
  | _ => none

/-- Deserialization of Role. -/
def decodeRole : Json → Option Role
  | .str "user" => some .user
  | .str "assistant" => some .assistant
  | _ => none

/-- Deserialization of StopReason. -/
def decodeStopReason : Json → Option StopReason
  | .str "end_turn" => some .endTurn
  | .str "max_tokens" => some .maxTokens
  | .str "stop_sequence" => some .stopSequence
  | .str "tool_use" => some .toolUse
  | _ => none

/-- Deserialization of ImageSource. -/
def decodeImageSource (j : Json) : Option ImageSource :=
  match j.asObj with
  | none => none
  | some kvs =>
    match reqField kvs "type" decodeString with
    | some "base64" =>
      match reqField kvs "media_type" decodeString, reqField kvs "data" decodeString with
      | some mt, some d => some (.base64 mt d)
      | _, _ => none
    | _ => none

/-- Fuel-indexed deserializers of the mutually recursive ContentBlock and
ToolResultContent; the fuel bounds how deeply nested tool results may be, and
one unit is spent per nesting level, so any fuel at least the sizeOf of the
input value is enough. -/
def cbDecoders : Nat → (Json → Option ContentBlock) × (Json → Option ToolResultContent)
  | 0 => (fun _ => none, fun _ => none)
  | fuel + 1 =>
    let dcb := (cbDecoders fuel).1
    let dtrc := (cbDecoders fuel).2
    (fun j =>
      match j.asObj with
      | none => none
      | some kvs =>
        match reqField kvs "type" decodeString with
        | some "text" => (reqField kvs "text" decodeString).map .text
        | some "image" => (reqField kvs "source" decodeImageSource).map .image
        | some "tool_use" =>
          match reqField kvs "id" decodeString, reqField kvs "name" decodeString,
              jget kvs "input" with
          | some i, some n, some inp => some (.toolUse i n inp)
          | _, _, _ => none
        | some "tool_result" =>
          match reqField kvs "tool_use_id" decodeString, optFieldD kvs "is_error" decodeBool,
              reqField kvs "content" dtrc with
          | some tid, some ie, some c => some (.toolResult tid ie c)
          | _, _, _ => none
        | some "thinking" => (reqField kvs "thinking" decodeString).map .thinking
        | some "redacted_thinking" => (reqField kvs "data" decodeString).map .redactedThinking
        | _ => none,
     fun j =>
      match j with
      | .str s => some (.text s)
      | .arr js => (decodeElems dcb js).map .blocks
      | _ => none)

/-- Deserialization of ContentBlock. -/
def fromJsonContentBlock (j : Json) : Option ContentBlock := (cbDecoders (jsonSize j)).1 j

/-- Deserialization of ToolResultContent. -/
def fromJsonToolResultContent (j : Json) : Option ToolResultContent :=
  (cbDecoders (jsonSize j)).2 j

/-- Deserialization of Message. -/
def fromJsonMessage (j : Json) : Option Message :=
  match j.asObj with
  | none => none
  | some kvs =>
    match reqField kvs "role" decodeRole,
        reqField kvs "content" (decodeList fromJsonContentBlock) with
    | some r, some c => some ⟨r, c⟩
    | _, _ => none

/-- Deserialization of SystemPrompt (untagged: string first, then block
list). -/
def fromJsonSystemPrompt : Json → Option SystemPrompt
  | .str s => some (.text s)
  | .arr js => (decodeElems fromJsonContentBlock js).map .blocks
  | _ => none

/-- Deserialization of Metadata. -/
def fromJsonMetadata (j : Json) : Option Metadata :=
  match j.asObj with
  | none => none
  | some kvs => (optFieldD kvs "user_id" decodeString).map Metadata.mk

/-- Deserialization of Tool. -/
def fromJsonTool (j : Json) : Option Tool :=
  match j.asObj with
  | none => none
  | some kvs =>
    match reqField kvs "name" decodeString, reqField kvs "description" decodeString,
        jget kvs "input_schema" with
    | some n, some d, some s => some ⟨n, d, s⟩
    | _, _, _ => none

/-- Deserialization of ToolChoice. -/
def fromJsonToolChoice (j : Json) : Option ToolChoice :=
  match j.asObj with
  | none => none
  | some kvs =>
    match reqField kvs "type" decodeString with
    | some "auto" => some .auto
    | some "any" => some .any
    | some "tool" => (reqField kvs "name" decodeString).map .tool
    | _ => none

/-- Deserialization of ThinkingConfig. -/
def fromJsonThinkingConfig (j : Json) : Option ThinkingConfig :=
  match j.asObj with
  | none => none
  | some kvs =>
    match reqField kvs "type" decodeString with
    | some "enabled" => (reqField kvs "budget_tokens" decodeU32).map .enabled
    | some "disabled" => some .disabled
    | _ => none

/-- Deserialization of MessagesRequest. -/
def fromJsonMessagesRequest (j : Json) : Option MessagesRequest :=
  match j.asObj with
  | none => none
  | some kvs =>
    match reqField kvs "model" decodeString,
        reqField kvs "messages" (decodeList fromJsonMessage),
        reqField kvs "max_tokens" decodeU32 with
    | some model, some messages, some max_tokens =>
      match optFieldD kvs "system" fromJsonSystemPrompt,
          optFieldD kvs "metadata" fromJsonMetadata,
          optFieldD kvs "stop_sequences" (decodeList decodeString),
          optFieldD kvs "temperature" decodeF64,
          optFieldD kvs "top_p" decodeF64,
          optFieldD kvs "top_k" decodeU32 with
      | some system, some metadata, some stop_sequences, some temperature, some top_p,
          some top_k =>
        match optFieldD kvs "stream" decodeBool,
            optFieldD kvs "tools" (decodeList fromJsonTool),
            optFieldD kvs "tool_choice" fromJsonToolChoice,
            optFieldD kvs "thinking" fromJsonThinkingConfig with
        | some stream, some tools, some tool_choice, some thinking =>
          some ⟨model, messages, max_tokens, system, metadata, stop_sequences, temperature,
                top_p, top_k, stream, tools, tool_choice, thinking⟩
        | _, _, _, _ => none
      | _, _, _, _, _, _ => none
    | _, _, _ => none

/-- Deserialization of CacheCreation. -/
def fromJsonCacheCreation (j : Json) : Option CacheCreation :=
  match j.asObj with
  | none => none
  | some kvs =>
    match defField kvs "ephemeral_1h_input_tokens" decodeU32 ⟨0, by omega⟩,
        defField kvs "ephemeral_5m_input_tokens" decodeU32 ⟨0, by omega⟩ with
    | some a, some b => some ⟨a, b⟩
    | _, _ => none

/-- Deserialization of Usage. -/
def fromJsonUsage (j : Json) : Option Usage :=
  match j.asObj with
  | none => none
  | some kvs =>
    match reqField kvs "input_tokens" decodeU32, reqField kvs "output_tokens" decodeU32,
        defField kvs "cache_creation_input_tokens" decodeU32 ⟨0, by omega⟩,
        defField kvs "cache_read_input_tokens" decodeU32 ⟨0, by omega⟩,
        defField kvs "cache_creation" fromJsonCacheCreation ⟨⟨0, by omega⟩, ⟨0, by omega⟩⟩,
        optFieldD kvs "service_tier" decodeString with
    | some it, some ot, some cc, some cr, some c, some st => some ⟨it, ot, cc, cr, c, st⟩
    | _, _, _, _, _, _ => none

/-- Deserialization of MessagesResponse. -/
def fromJsonMessagesResponse (j : Json) : Option MessagesResponse :=
  match j.asObj with
  | none => none
  | some kvs =>
    match reqField kvs "id" decodeString, reqField kvs "type" decodeString,
        reqField kvs "role" decodeRole,
        reqField kvs "content" (decodeList fromJsonContentBlock),
        reqField kvs "model" decodeString with
    | some id, some ty, some role, some content, some model =>
      match optFieldD kvs "stop_reason" decodeStopReason,
          optFieldD kvs "stop_sequence" decodeString,
          reqField kvs "usage" fromJsonUsage with
      | some sr, some ss, some usage => some ⟨id, ty, role, content, model, sr, ss, usage⟩
      | _, _, _ => none
    | _, _, _, _, _ => none

/-- Deserialization of ContentBlockDelta. -/
def fromJsonContentBlockDelta (j : Json) : Option ContentBlockDelta :=
  match j.asObj with
  | none => none
  | some kvs =>
    match reqField kvs "type" decodeString with
    | some "text_delta" => (reqField kvs "text" decodeString).map .textDelta
    | some "input_json_delta" => (reqField kvs "partial_json" decodeString).map .inputJsonDelta
    | _ => none

/-- Deserialization of MessageDeltaUsage. -/
def fromJsonMessageDeltaUsage (j : Json) : Option MessageDeltaUsage :=
  match j.asObj with
  | none => none
  | some kvs => (reqField kvs "output_tokens" decodeU32).map MessageDeltaUsage.mk

/-- Deserialization of MessageDelta. -/
def fromJsonMessageDelta (j : Json) : Option MessageDelta :=
  match j.asObj with
  | none => none
  | some kvs =>
    match optFieldD kvs "stop_reason" decodeStopReason,
        optFieldD kvs "stop_sequence" decodeString with
    | some sr, some ss => some ⟨sr, ss⟩
    | _, _ => none

/-- Deserialization of MessagesStreamEvent. -/
def fromJsonMessagesStreamEvent (j : Json) : Option MessagesStreamEvent :=
  match j.asObj with
  | none => none
  | some kvs =>
    match reqField kvs "type" decodeString with
    | some "message_start" => (reqField kvs "message" fromJsonMessage).map .messageStart
    | some "content_block_start" =>
      match reqField kvs "index" decodeUsize,
          reqField kvs "content_block" fromJsonContentBlock with
      | some i, some cb => some (.contentBlockStart i cb)
      | _, _ => none
    | some "content_block_delta" =>
      match reqField kvs "index" decodeUsize,
          reqField kvs "delta" fromJsonContentBlockDelta with
      | some i, some d => some (.contentBlockDelta i d)
      | _, _ => none
    | some "content_block_stop" => (reqField kvs "index" decodeUsize).map .contentBlockStop
    | some "message_delta" =>
      match reqField kvs "delta" fromJsonMessageDelta,
          reqField kvs "usage" fromJsonMessageDeltaUsage with
      | some d, some u => some (.messageDelta d u)
      | _, _ => none
    | some "message_stop" => some .messageStop
    | _ => none

/-- Deserialization of ApiError. -/
def fromJsonApiError (j : Json) : Option ApiError :=
  match j.asObj with
  | none => none
  | some kvs =>
    match reqField kvs "message" decodeString, reqField kvs "type" decodeString,
        optFieldD kvs "param" (fun v => some v), optFieldD kvs "code" (fun v => some v) with
    | some m, some t, some p, some c => some ⟨m, t, p, c⟩
    | _, _, _, _ => none

/-- Deserialization of ErrorResponse. -/
def fromJsonErrorResponse (j : Json) : Option ErrorResponse :=
  match j.asObj with
  | none => none
  | some kvs => (reqField kvs "error" fromJsonApiError).map ErrorResponse.mk

/-- serde_json::from_str for MessagesStreamEvent. -/
def eventFromStr (s : String) : Option MessagesStreamEvent :=
  (jsonParse s).bind fromJsonMessagesStreamEvent

/-- serde_json::from_str for ErrorResponse. -/
def errorResponseFromStr (s : String) : Option ErrorResponse :=
  (jsonParse s).bind fromJsonErrorResponse

/-- serde_json::from_slice for ErrorResponse. -/
def errorResponseFromSlice (bytes : List Nat) : Option ErrorResponse :=
  (jsonParseBytes bytes).bind fromJsonErrorResponse

/-! Model of src/anthropic/src/client.rs: the error classifier, the retry
engine, the buffered and streaming entry points and the SSE pump task. -/

/-- client.rs parse_error: if the body parses as the standard error
envelope, an Api error with the envelope's payload; otherwise an
UnexpectedResponse carrying the raw status and the body decoded lossily as
text. Total on arbitrary status and bytes. -/
def parse_error (status : Nat) (bytes : List Nat) : AnthropicError :=
  match errorResponseFromSlice bytes with
  | some er => .api er.error
  | none => .unexpectedResponse status (fromUtf8Lossy bytes)

/-- One physical outcome the HTTP transport can produce for an attempt: the
send itself fails (a reqwest error), reading the body fails, or a response
arrives with a status and full body bytes. -/
inductive Attempt where
  | httpFail
  | bodyFail
  | resp (status : Nat) (body : List Nat)

/-- http StatusCode::is_success: status in 200..=299. -/
def isSuccessStatus (status : Nat) : Bool := 200 ≤ status ∧ status ≤ 299

/-- Outcome of one iteration of the closure Client::execute passes to
backoff::future::retry: return, permanent error, or transient error. -/
inductive RetryStep (O : Type) where
  | ok (v : O)
  | permanent (e : AnthropicError)
  | transient (e : AnthropicError)

/-- The closure body in Client::execute's retrying branch: transport
failures become permanent Http errors; a non-success status is classified
by parse_error, transient exactly when the status is 429; a success body is
decoded into O, and a decode failure is a permanent Deserialize error.
decodeO stands for serde_json::from_slice at the caller's response type. -/
def attemptStep (decodeO : List Nat → Option O) : Attempt → RetryStep O
  | .httpFail => .permanent .http
  | .bodyFail => .permanent .http
  | .resp status body =>
    if !isSuccessStatus status then
      let e := parse_error status body
      if status = 429 then .transient e else .permanent e
    else
      match decodeO body with
      | some v => .ok v
      | none => .permanent .deserialize

/-- Result of Client::execute: the value or error returned to the caller,
the number of physical attempts issued, and the sleeps performed between
attempts. -/
structure ExecResult (O : Type) where
  result : Except AnthropicError O
  attempts : Nat
  waits : List Nat

/-- backoff::future::retry over an ExponentialBackoff policy, the policy
abstracted to the finite list of sleeps it grants before next_backoff
returns None (its max-elapsed-time cutoff): an Ok or permanent outcome
returns at once; a transient outcome consumes one sleep and retries, and
when no sleep is left the last transient error is returned. The index i
numbers the attempts from 0. -/
def backoffRetry (step : Nat → RetryStep O) : List Nat → Nat → ExecResult O
  | delays, i =>
    match step i with
    | .ok v => ⟨.ok v, i + 1, []⟩
    | .permanent e => ⟨.error e, i + 1, []⟩
    | .transient e =>
      match delays with
      | [] => ⟨.error e, i + 1, []⟩
      | d :: rest =>
        let r := backoffRetry step rest (i + 1)
        ⟨r.result, r.attempts, d :: r.waits⟩

/-- client.rs process_response on a single attempt outcome (the question
mark operator on the transport call maps a failed send to an Http error
before process_response runs, and a failed body read inside it does the
same). -/
def process_response (decodeO : List Nat → Option O) : Attempt → Except AnthropicError O
  | .httpFail => .error .http
  | .bodyFail => .error .http
  | .resp status body =>
    if !isSuccessStatus status then .error (parse_error status body)
    else
      match decodeO body with
      | some v => .ok v
      | none => .error .deserialize

/-- client.rs Client::execute: when request.try_clone() succeeds (cloneable:
the body can be re-sent identically), run the attempt closure under
backoff::future::retry; otherwise issue the request exactly once and
process its single response. The transport is modelled by the outcome
step i of the i-th issuance of the same request. -/
def Client.execute (decodeO : List Nat → Option O) (cloneable : Bool)
    (delays : List Nat) (step : Nat → Attempt) : ExecResult O :=
  if cloneable then backoffRetry (fun i => attemptStep decodeO (step i)) delays 0
  else ⟨process_response decodeO (step 0), 1, []⟩

/-- What Client::messages decides before any transport activity: reject the
request with a client-side error, or clear its stream flag and post it. -/
inductive MessagesAction where
  | reject (e : AnthropicError)
  | post (body : MessagesRequest)

/-- client.rs Client::messages up to its dispatch into post/execute:
a request with stream explicitly Some(true) is rejected with an
InvalidRequest error before anything is sent; otherwise the stream flag is
cleared and the request body is posted. -/
def Client.messages (request : MessagesRequest) : MessagesAction :=
  if request.stream = some true then
    .reject (.invalidRequest "stream=true requests must use messages_stream")
  else .post { request with stream := none }

/-- Transport dispatches a MessagesAction initiates: a rejection initiates
none, a post hands one request to the retry engine. -/
def MessagesAction.networkCalls : MessagesAction → Nat
  | .reject _ => 0
  | .post _ => 1

/-- client.rs Client::messages_stream: force the stream flag on and hand
the request to post_stream; the Ok constructor is applied unconditionally,
so the Err branch of its Result type is never taken. -/
def Client.messages_stream (request : MessagesRequest) :
    Except AnthropicError MessagesRequest :=
  .ok { request with stream := some true }

/-- reqwest HeaderValue::from_str validity: every byte of the string must
be horizontal tab or in 0x20..=0xFF without 0x7F. Every byte of a
multi-byte UTF-8 character is at least 0x80 and so accepted; an ASCII
character is its own byte. -/
def isValidHeaderValue (s : String) : Bool :=
  s.toList.all (fun c => c = '\t' ∨ (0x20 ≤ c.toNat ∧ c.toNat ≠ 0x7F))

/-- HeaderValue::from_str. -/
def headerValueFromStr (s : String) : Option String :=
  if isValidHeaderValue s then some s else none

/-- Result of running Client::headers: the header map, or a panic raised by
one of its unwrap calls. -/
inductive HeadersResult where
  | panicked
  | ok (hs : List (String × String))

/-- client.rs Client::headers with its unwrap calls made explicit: each
HeaderValue::from_str on the api key, the api version and the optional beta
flag is unwrapped, so an invalid header value panics instead of surfacing
the declared AnthropicError::InvalidHeaderValue variant. -/
def Client.headers (api_key api_version : String) (beta : Option String) : HeadersResult :=
  match headerValueFromStr api_key with
  | none => .panicked
  | some kv =>
    match headerValueFromStr api_version with
    | none => .panicked
    | some vv =>
      match beta with
      | none =>
        .ok [("x-api-key", kv), ("anthropic-version", vv),
             ("content-type", "application/json"), ("accept", "application/json"),
             ("user-agent", "claude-code/2.1.2")]
      | some b =>
        match headerValueFromStr b with
        | none => .panicked
        | some bv =>
          .ok [("x-api-key", kv), ("anthropic-version", vv),
               ("content-type", "application/json"), ("accept", "application/json"),
               ("user-agent", "claude-code/2.1.2"), ("anthropic-beta", bv)]

/-- reqwest_eventsource events: the Open control frame or a named message
frame with a data payload. -/
inductive SseEvent where
  | openEv
  | message (event : String) (data : String)

/-- reqwest_eventsource errors: the clean StreamEnded signal or any other
connection-level error with its display text. -/
inductive EsError where
  | streamEnded
  | other (msg : String)

/-- One outcome the EventSource stream yields to the pump loop. -/
inductive Frame where
  | ev (e : SseEvent)
  | err (e : EsError)

/-- One item surfaced to the consumer of the typed event stream. -/
inductive Item where
  | ok (e : MessagesStreamEvent)
  | fail (e : AnthropicError)

/-- Whether an item is a failure item. -/
def Item.isFail : Item → Bool
  | .fail _ => true
  | .ok _ => false

/-- Whether an item is a failure from the message-parse paths (a parsed API
error frame or a decode failure), after which the pump breaks. -/
def Item.isParseFailure : Item → Bool
  | .fail (.api _) => true
  | .fail .deserialize => true
  | _ => false

/-- Frames on which the pump touches the channel or breaks: every frame
except the Open control frame and ping keep-alives, which are consumed
silently. -/
def Frame.isSendFrame : Frame → Bool
  | .ev .openEv => false
  | .ev (.message event _) => if event = "ping" then false else true
  | .err _ => true

/-- The pump task client.rs stream spawns, as a function of the frames the
EventSource would yield in order and of how many channel sends still
succeed before the consumer drops the receiver (sends are sequential, so
any drop point is a threshold on successful sends). Returns the items
actually delivered into the channel and the number of frames pulled before
the loop stopped; the event source is closed when the loop stops. Open and
ping frames are skipped; an error event frame becomes an Api or Deserialize
failure and a non-error event frame a parsed event or Deserialize failure,
sent then breaking on failure; the clean StreamEnded signal breaks
silently; any other connection-level error is sent as an InvalidRequest
failure and the loop continues; a failed send (dropped receiver) breaks.
frameResponse is the response computed for one non-ping message frame: the
error event name parses the envelope into an Api error (or a Deserialize
failure), any other event name parses a MessagesStreamEvent (or a
Deserialize failure). -/
def frameResponse (event data : String) : Except AnthropicError MessagesStreamEvent :=
  if event = "error" then
    match errorResponseFromStr data with
    | some er => .error (.api er.error)
    | none => .error .deserialize
  else
    match eventFromStr data with
    | some out => .ok out
    | none => .error .deserialize

def pump : List Frame → Nat → List Item × Nat
  | [], _ => ([], 0)
  | .ev .openEv :: rest, alive =>
    let r := pump rest alive
    (r.1, r.2 + 1)
  | .ev (.message event data) :: rest, alive =>
    if event = "ping" then
      let r := pump rest alive
      (r.1, r.2 + 1)
    else
      match alive, frameResponse event data with
      | 0, _ => ([], 1)
      | a + 1, .ok out =>
        let r := pump rest a
        (.ok out :: r.1, r.2 + 1)
      | _ + 1, .error e => ([.fail e], 1)
  | .err .streamEnded :: _, _ => ([], 1)
  | .err (.other msg) :: rest, alive =>
    match alive with
    | 0 => ([], 1)
    | a + 1 =>
      let r := pump rest a
      (.fail (.invalidRequest ("stream error: " ++ msg)) :: r.1, r.2 + 1)

/-- Whether an error is one of the stream-setup variants of the error
taxonomy (EventSource and EventSourceCannotClone). -/
def AnthropicError.isStreamSetup : AnthropicError → Bool
  | .eventSource => true
  | .eventSourceCannotClone => true
  | _ => false

/-! Properties of the retry engine backoffRetry / Client.execute. -/

/-- When every attempt up to and including the one after the last granted
sleep is transient, the retry loop sleeps through the whole schedule and
returns the last transient error. -/
theorem backoffRetry_exhaust {O : Type} (step : Nat → RetryStep O) (es : Nat → AnthropicError) :
    ∀ (delays : List Nat) (i : Nat),
      (∀ k, k ≤ delays.length → step (i + k) = .transient (es (i + k))) →
      backoffRetry step delays i =
        ⟨.error (es (i + delays.length)), i + delays.length + 1, delays⟩ := by
  intro delays
  induction delays with
  | nil =>
    intro i h
    have h0 := h 0 (by simp)
    rw [Nat.add_zero] at h0
    simp [backoffRetry, h0]
  | cons d rest ih =>
    intro i h
    have h0 := h 0 (by simp)
    rw [Nat.add_zero] at h0
    have hrec := ih (i + 1) (fun k hk => by
      have hx := h (k + 1) (by simp only [List.length_cons]; omega)
      rwa [show i + (k + 1) = i + 1 + k by omega] at hx)
    rw [show i + 1 + rest.length = i + (d :: rest).length by simp only [List.length_cons]; omega]
      at hrec
    simp only [backoffRetry, h0, hrec]

/-- When the attempts before index m are transient within the sleep budget
and attempt m returns a value, the retry loop returns that value after m
sleeps. -/
theorem backoffRetry_stop_ok {O : Type} (step : Nat → RetryStep O) (es : Nat → AnthropicError) :
    ∀ (delays : List Nat) (i m : Nat) (v : O), m ≤ delays.length →
      (∀ k, k < m → step (i + k) = .transient (es (i + k))) →
      step (i + m) = .ok v →
      backoffRetry step delays i = ⟨.ok v, i + m + 1, delays.take m⟩ := by
  intro delays
  induction delays with
  | nil =>
    intro i m v hm _ hstop
    have hm0 : m = 0 := by simpa using hm
    subst hm0
    rw [Nat.add_zero] at hstop
    simp [backoffRetry, hstop]
  | cons d rest ih =>
    intro i m v hm hpre hstop
    cases m with
    | zero =>
      rw [Nat.add_zero] at hstop
      simp [backoffRetry, hstop]
    | succ m =>
      have h0 := hpre 0 (by omega)
      rw [Nat.add_zero] at h0
      have hrec := ih (i + 1) m v (by simp only [List.length_cons] at hm; omega)
        (fun k hk => by
          have hx := hpre (k + 1) (by omega)
          rwa [show i + (k + 1) = i + 1 + k by omega] at hx)
        (by rwa [show i + (m + 1) = i + 1 + m by omega] at hstop)
      simp only [backoffRetry, h0, hrec, List.take_succ_cons]
      rw [show i + (m + 1) + 1 = i + 1 + m + 1 by omega]

/-- When the attempts before index m are transient within the sleep budget
and attempt m is a permanent error, the retry loop returns that error after
m sleeps. -/
theorem backoffRetry_stop_permanent {O : Type} (step : Nat → RetryStep O)
    (es : Nat → AnthropicError) :
    ∀ (delays : List Nat) (i m : Nat) (e : AnthropicError), m ≤ delays.length →
      (∀ k, k < m → step (i + k) = .transient (es (i + k))) →
      step (i + m) = .permanent e →
      backoffRetry step delays i = ⟨.error e, i + m + 1, delays.take m⟩ := by
  intro delays
  induction delays with
  | nil =>
    intro i m e hm _ hstop
    have hm0 : m = 0 := by simpa using hm
    subst hm0
    rw [Nat.add_zero] at hstop
    simp [backoffRetry, hstop]
  | cons d rest ih =>
    intro i m e hm hpre hstop
    cases m with
    | zero =>
      rw [Nat.add_zero] at hstop
      simp [backoffRetry, hstop]
    | succ m =>
      have h0 := hpre 0 (by omega)
      rw [Nat.add_zero] at h0
      have hrec := ih (i + 1) m e (by simp only [List.length_cons] at hm; omega)
        (fun k hk => by
          have hx := hpre (k + 1) (by omega)
          rwa [show i + (k + 1) = i + 1 + k by omega] at hx)
        (by rwa [show i + (m + 1) = i + 1 + m by omega] at hstop)
      simp only [backoffRetry, h0, hrec, List.take_succ_cons]
      rw [show i + (m + 1) + 1 = i + 1 + m + 1 by omega]

/-- A 429 response makes the attempt closure transient with the classified
error. -/
theorem attemptStep_429 {O : Type} (decodeO : List Nat → Option O) (body : List Nat) :
    attemptStep decodeO (.resp 429 body) = .transient (parse_error 429 body) := by
  simp [attemptStep, isSuccessStatus]

/-- A rate-limit error envelope body, used by concrete instances. -/
def body429 : List Nat :=
  asciiBytes "\x7b\"error\":\x7b\"message\":\"rate limited\",\"type\":\"rate_limit_error\"\x7d\x7d"

/-- The envelope body429 parses to. -/
def env429 : ErrorResponse := ⟨⟨"rate limited", "rate_limit_error", none, none⟩⟩

/-- A response decoder recognizing exactly the body "7", as the number 7. -/
def decodeNat7 : List Nat → Option Nat :=
  fun b => if b = asciiBytes "7" then some 7 else none

/-- A transport whose every attempt returns status 200 with body "7". -/
def stepOk200 : Nat → Attempt := fun _ => .resp 200 (asciiBytes "7")

/-- C1: for a buffered call whose attempts return status 429 with an
error-envelope body, Client::execute re-issues the identical request,
waiting per the backoff schedule, until an attempt succeeds, an attempt
yields a non-429 terminal outcome, or the schedule is exhausted, after
which the last 429-classified API error is returned rather than retrying
indefinitely: part one states the exhaustion case (all waits of the
schedule are performed and the last attempt's API error is returned), part
two the stop-on-success case, part three the stop-on-non-429 case. -/
theorem execute_retries_429_to_ceiling {O : Type}
    (decodeO : List Nat → Option O) (delays : List Nat) (step : Nat → Attempt)
    (bodies : Nat → List Nat) :
    ((∀ i, i ≤ delays.length → step i = .resp 429 (bodies i)) →
      ∀ envs : Nat → ErrorResponse,
        (∀ i, i ≤ delays.length → errorResponseFromSlice (bodies i) = some (envs i)) →
        Client.execute decodeO true delays step =
          ⟨.error (.api (envs delays.length).error), delays.length + 1, delays⟩) ∧
    (∀ m st body v, m ≤ delays.length →
      (∀ i, i < m → step i = .resp 429 (bodies i)) →
      step m = .resp st body → isSuccessStatus st = true → decodeO body = some v →
      Client.execute decodeO true delays step = ⟨.ok v, m + 1, delays.take m⟩) ∧
    (∀ m st body, m ≤ delays.length →
      (∀ i, i < m → step i = .resp 429 (bodies i)) →
      step m = .resp st body → isSuccessStatus st = false → st ≠ 429 →
      Client.execute decodeO true delays step =
        ⟨.error (parse_error st body), m + 1, delays.take m⟩) := by
  have hexec : Client.execute decodeO true delays step =
      backoffRetry (fun i => attemptStep decodeO (step i)) delays 0 := by
    simp [Client.execute]
  refine ⟨?_, ?_, ?_⟩
  · intro hall envs henvs
    have h := backoffRetry_exhaust (fun i => attemptStep decodeO (step i))
      (fun i => parse_error 429 (bodies i)) delays 0 (fun k hk => by
        simp only [Nat.zero_add]
        rw [hall k hk, attemptStep_429])
    have hpe : parse_error 429 (bodies delays.length) = .api (envs delays.length).error := by
      simp [parse_error, henvs delays.length le_rfl]
    simp only [Nat.zero_add] at h
    rw [hexec, h, hpe]
  · intro m st body v hm hpre hstep hsucc hdec
    have h := backoffRetry_stop_ok (fun i => attemptStep decodeO (step i))
      (fun i => parse_error 429 (bodies i)) delays 0 m v hm
      (fun k hk => by simp only [Nat.zero_add]; rw [hpre k hk, attemptStep_429])
      (by simp only [Nat.zero_add]; rw [hstep]; simp [attemptStep, hsucc, hdec])
    simp only [Nat.zero_add] at h
    rw [hexec, h]
  · intro m st body hm hpre hstep hsucc hne
    have h := backoffRetry_stop_permanent (fun i => attemptStep decodeO (step i))
      (fun i => parse_error 429 (bodies i)) delays 0 m (parse_error st body) hm
      (fun k hk => by simp only [Nat.zero_add]; rw [hpre k hk, attemptStep_429])
      (by simp only [Nat.zero_add]; rw [hstep]; simp [attemptStep, hsucc, hne])
    simp only [Nat.zero_add] at h
    rw [hexec, h]

/-- Witness for C1: a transport that always answers 429 with a rate-limit
envelope exhausts the two-sleep schedule, performs both waits and returns
the envelope's API error after three attempts. -/
theorem execute_retries_429_to_ceiling_witness :
    Client.execute decodeNat7 true [5, 6] (fun _ => .resp 429 body429) =
      ⟨.error (.api env429.error), 3, [5, 6]⟩ :=
  (execute_retries_429_to_ceiling decodeNat7 [5, 6] (fun _ => .resp 429 body429)
    (fun _ => body429)).1 (fun _ _ => rfl) (fun _ => env429) (fun _ _ => rfl)

/-- C6: a 2xx attempt whose body fails to decode is terminal: the call
returns the Deserialize error right after that attempt (m earlier 429
attempts were retried, the failing attempt is the last, no further attempt
follows). -/
theorem execute_2xx_decode_failure_terminal {O : Type}
    (decodeO : List Nat → Option O) (delays : List Nat) (step : Nat → Attempt)
    (bodies : Nat → List Nat) :
    ∀ m st body, m ≤ delays.length →
      (∀ i, i < m → step i = .resp 429 (bodies i)) →
      step m = .resp st body → isSuccessStatus st = true → decodeO body = none →
      Client.execute decodeO true delays step =
        ⟨.error .deserialize, m + 1, delays.take m⟩ := by
  intro m st body hm hpre hstep hsucc hdec
  have hexec : Client.execute decodeO true delays step =
      backoffRetry (fun i => attemptStep decodeO (step i)) delays 0 := by
    simp [Client.execute]
  have h := backoffRetry_stop_permanent (fun i => attemptStep decodeO (step i))
    (fun i => parse_error 429 (bodies i)) delays 0 m .deserialize hm
    (fun k hk => by simp only [Nat.zero_add]; rw [hpre k hk, attemptStep_429])
    (by simp only [Nat.zero_add]; rw [hstep]; simp [attemptStep, hsucc, hdec])
  simp only [Nat.zero_add] at h
  rw [hexec, h]

/-- Witness for C6: a single 200 attempt with an undecodable body returns
the Deserialize error after exactly one attempt and no waits. -/
theorem execute_2xx_decode_failure_terminal_witness :
    Client.execute decodeNat7 true [5] (fun _ => .resp 200 (asciiBytes "bad")) =
      ⟨.error .deserialize, 1, []⟩ :=
  execute_2xx_decode_failure_terminal decodeNat7 [5]
    (fun _ => .resp 200 (asciiBytes "bad")) (fun _ => [])
    0 200 (asciiBytes "bad") (by omega) (fun i hi => absurd hi (by omega)) rfl rfl rfl

/-- Counterexample to C5: a buffered call whose request cannot be cloned is
still sent once, and can succeed: with a transport answering 200 and a
decodable body, the non-cloneable branch of Client::execute returns the
decoded value after one issued attempt, not a transport failure after zero
attempts. -/
theorem execute_noncloneable_succeeds_counterexample :
    Client.execute decodeNat7 false [5] stepOk200 = ⟨.ok 7, 1, []⟩ ∧
    (Client.execute decodeNat7 false [5] stepOk200).attempts ≠ 0 :=
  ⟨rfl, by decide⟩

/-- C5 as amended: a buffered call whose request cannot be cloned is issued
exactly once with no retry and no waiting, and its single outcome is
processed as usual: classified failure on non-success status, decoded value
or Deserialize error on success status, Http error on a failed send. -/
theorem execute_noncloneable_single_attempt {O : Type}
    (decodeO : List Nat → Option O) (delays : List Nat) (step : Nat → Attempt) :
    Client.execute decodeO false delays step =
      ⟨process_response decodeO (step 0), 1, []⟩ ∧
    (∀ st body, step 0 = .resp st body → isSuccessStatus st = false →
      (Client.execute decodeO false delays step).result = .error (parse_error st body)) ∧
    (∀ st body v, step 0 = .resp st body → isSuccessStatus st = true → decodeO body = some v →
      (Client.execute decodeO false delays step).result = .ok v) ∧
    (∀ st body, step 0 = .resp st body → isSuccessStatus st = true → decodeO body = none →
      (Client.execute decodeO false delays step).result = .error .deserialize) ∧
    (step 0 = .httpFail → (Client.execute decodeO false delays step).result = .error .http) := by
  refine ⟨by simp [Client.execute], ?_, ?_, ?_, ?_⟩
  · intro st body hstep hsucc
    simp [Client.execute, process_response, hstep, hsucc]
  · intro st body v hstep hsucc hdec
    simp [Client.execute, process_response, hstep, hsucc, hdec]
  · intro st body hstep hsucc hdec
    simp [Client.execute, process_response, hstep, hsucc, hdec]
  · intro hstep
    simp [Client.execute, process_response, hstep]

/-- Witness for the amended C5: a non-cloneable request against a transport
answering 404 with a non-envelope body is issued once and fails with the
unexpected-status classification of that single response. -/
theorem execute_noncloneable_single_attempt_witness :
    Client.execute decodeNat7 false [5] (fun _ => .resp 404 (asciiBytes "nope")) =
      ⟨process_response decodeNat7 (.resp 404 (asciiBytes "nope")), 1, []⟩ ∧
    (Client.execute decodeNat7 false [5]
      (fun _ => .resp 404 (asciiBytes "nope"))).result =
        .error (parse_error 404 (asciiBytes "nope")) :=
  ⟨(execute_noncloneable_single_attempt decodeNat7 [5]
      (fun _ => .resp 404 (asciiBytes "nope"))).1,
   (execute_noncloneable_single_attempt decodeNat7 [5]
      (fun _ => .resp 404 (asciiBytes "nope"))).2.1 404 (asciiBytes "nope") rfl rfl⟩

/-- C4: a buffered call whose request has the streaming flag explicitly set
to true is rejected immediately with a client-side InvalidRequest error by
pure validation, and the rejection initiates zero transport dispatches. -/
theorem messages_rejects_explicit_stream_flag (r : MessagesRequest)
    (h : r.stream = some true) :
    Client.messages r =
      .reject (.invalidRequest "stream=true requests must use messages_stream") ∧
    (Client.messages r).networkCalls = 0 := by
  constructor
  · simp [Client.messages, h]
  · simp [Client.messages, h, MessagesAction.networkCalls]

/-- A concrete request with the streaming flag explicitly set. -/
def reqStreamTrue : MessagesRequest :=
  ⟨"claude-3", [], ⟨16, by omega⟩, none, none, none, none, none, none, some true, none, none,
   none⟩

/-- Witness for C4 at a concrete request. -/
theorem messages_rejects_explicit_stream_flag_witness :
    Client.messages reqStreamTrue =
      .reject (.invalidRequest "stream=true requests must use messages_stream") ∧
    (Client.messages reqStreamTrue).networkCalls = 0 :=
  messages_rejects_explicit_stream_flag reqStreamTrue rfl

/-- C7: Client::headers unwraps every HeaderValue::from_str, so an api key
holding a character invalid in an HTTP header value (here a newline) makes
the operation panic instead of returning the typed
AnthropicError::InvalidHeaderValue the error enum declares for this case;
with valid identity strings the header map is produced as documented. -/
theorem headers_panics_on_invalid_api_key :
    Client.headers "key\nsplit" "2023-06-01" none = .panicked ∧
    Client.headers "sk-ant-key" "2023-06-01" none =
      .ok [("x-api-key", "sk-ant-key"), ("anthropic-version", "2023-06-01"),
           ("content-type", "application/json"), ("accept", "application/json"),
           ("user-agent", "claude-code/2.1.2")] :=
  ⟨rfl, rfl⟩

/-! Properties for C9: the stream-setup error variants are never produced. -/

/-- The classifier never produces a stream-setup error. -/
theorem parse_error_not_stream_setup (status : Nat) (bytes : List Nat) :
    (parse_error status bytes).isStreamSetup = false := by
  cases h : errorResponseFromSlice bytes <;>
    simp [parse_error, h, AnthropicError.isStreamSetup]

/-- Errors of the attempt closure are never stream-setup errors. -/
theorem attemptStep_error_not_stream_setup {O : Type} (decodeO : List Nat → Option O)
    (a : Attempt) (e : AnthropicError)
    (h : attemptStep decodeO a = .permanent e ∨ attemptStep decodeO a = .transient e) :
    e.isStreamSetup = false := by
  cases a with
  | httpFail =>
    rcases h with h | h <;> simp [attemptStep] at h
    subst h; rfl
  | bodyFail =>
    rcases h with h | h <;> simp [attemptStep] at h
    subst h; rfl
  | resp st body =>
    cases hs : isSuccessStatus st with
    | true =>
      cases hd : decodeO body with
      | some v => rcases h with h | h <;> simp [attemptStep, hs, hd] at h
      | none =>
        rcases h with h | h <;> simp [attemptStep, hs, hd] at h
        subst h; rfl
    | false =>
      by_cases h429 : st = 429
      · subst h429
        rcases h with h | h
        · rw [attemptStep_429] at h
          exact RetryStep.noConfusion h
        · rw [attemptStep_429] at h
          have he : parse_error 429 body = e := by injection h
          exact he ▸ parse_error_not_stream_setup 429 body
      · rcases h with h | h <;> simp [attemptStep, hs, h429] at h
        exact h ▸ parse_error_not_stream_setup st body

/-- Errors surfaced by the retry loop come from its step outcomes. -/
theorem backoffRetry_error_not_stream_setup {O : Type} (step : Nat → RetryStep O)
    (hstep : ∀ i e, (step i = .permanent e ∨ step i = .transient e) → e.isStreamSetup = false) :
    ∀ (delays : List Nat) (i : Nat) (e : AnthropicError),
      (backoffRetry step delays i).result = .error e → e.isStreamSetup = false := by
  intro delays
  induction delays with
  | nil =>
    intro i e h
    cases hs : step i with
    | ok v => simp [backoffRetry, hs] at h
    | permanent e2 =>
      simp [backoffRetry, hs] at h
      exact h ▸ hstep i e2 (Or.inl hs)
    | transient e2 =>
      simp [backoffRetry, hs] at h
      exact h ▸ hstep i e2 (Or.inr hs)
  | cons d rest ih =>
    intro i e h
    cases hs : step i with
    | ok v => simp [backoffRetry, hs] at h
    | permanent e2 =>
      simp [backoffRetry, hs] at h
      exact h ▸ hstep i e2 (Or.inl hs)
    | transient e2 =>
      rw [backoffRetry, hs] at h
      exact ih (i + 1) e h

/-- Errors of process_response are never stream-setup errors. -/
theorem process_response_error_not_stream_setup {O : Type} (decodeO : List Nat → Option O)
    (a : Attempt) (e : AnthropicError) (h : process_response decodeO a = .error e) :
    e.isStreamSetup = false := by
  cases a with
  | httpFail =>
    simp [process_response] at h
    exact h ▸ rfl
  | bodyFail =>
    simp [process_response] at h
    exact h ▸ rfl
  | resp st body =>
    cases hs : isSuccessStatus st with
    | true =>
      cases hd : decodeO body with
      | some v => simp [process_response, hs, hd] at h
      | none =>
        simp [process_response, hs, hd] at h
        exact h ▸ rfl
    | false =>
      simp [process_response, hs] at h
      exact h ▸ parse_error_not_stream_setup st body

/-- Errors of one non-ping message frame are Api or Deserialize errors. -/
theorem frameResponse_error_shape (event data : String) (e : AnthropicError)
    (h : frameResponse event data = .error e) :
    (∃ er, e = .api er) ∨ e = .deserialize := by
  by_cases herr : event = "error"
  · cases hp : errorResponseFromStr data with
    | some er =>
      simp [frameResponse, herr, hp] at h
      exact Or.inl ⟨er.error, h.symm⟩
    | none =>
      simp [frameResponse, herr, hp] at h
      exact Or.inr h.symm
  · cases hp : eventFromStr data with
    | some out => simp [frameResponse, herr, hp] at h
    | none =>
      simp [frameResponse, herr, hp] at h
      exact Or.inr h.symm

/-- Every failure item the pump delivers carries an Api, Deserialize or
InvalidRequest error. -/
theorem pump_fail_shape :
    ∀ (frames : List Frame) (alive : Nat) (e : AnthropicError),
      Item.fail e ∈ (pump frames alive).1 →
      (∃ er, e = .api er) ∨ e = .deserialize ∨ ∃ m, e = .invalidRequest m := by
  intro frames
  induction frames with
  | nil => intro alive e h; simp [pump] at h
  | cons f rest ih =>
    intro alive e h
    match f with
    | .ev .openEv =>
      simp only [pump] at h
      exact ih alive e h
    | .ev (.message event data) =>
      by_cases hping : event = "ping"
      · simp only [pump, if_pos hping] at h
        exact ih alive e h
      · cases hfr : frameResponse event data with
        | ok out =>
          cases alive with
          | zero => simp [pump, if_neg hping, hfr] at h
          | succ a =>
            simp only [pump, if_neg hping, hfr] at h
            rcases List.mem_cons.mp h with h1 | h2
            · exact absurd h1 (by simp)
            · exact ih a e h2
        | error e2 =>
          cases alive with
          | zero => simp [pump, if_neg hping, hfr] at h
          | succ a =>
            simp only [pump, if_neg hping, hfr] at h
            rcases List.mem_singleton.mp h with h1
            have he : e = e2 := by injection h1
            rcases frameResponse_error_shape event data e2 hfr with ⟨er, her⟩ | hd
            · exact Or.inl ⟨er, he ▸ her⟩
            · exact Or.inr (Or.inl (he ▸ hd))
    | .err .streamEnded => simp [pump] at h
    | .err (.other msg) =>
      cases alive with
      | zero => simp [pump] at h
      | succ a =>
        simp only [pump] at h
        rcases List.mem_cons.mp h with h1 | h2
        · have : e = .invalidRequest ("stream error: " ++ msg) := by injection h1
          exact Or.inr (Or.inr ⟨_, this⟩)
        · exact ih a e h2

/-- C9: Client::messages_stream always returns Ok, so the Err branch of its
Result is unreachable; and no modelled operation produces the EventSource
or EventSourceCannotClone variants: not the classifier, not the retry
engine in either branch, not the messages validation, and not the
streaming pump's surfaced failures. -/
theorem messages_stream_total_and_no_stream_setup_errors :
    (∀ r : MessagesRequest, Client.messages_stream r = .ok { r with stream := some true }) ∧
    (∀ status bytes, (parse_error status bytes).isStreamSetup = false) ∧
    (∀ (O : Type) (decodeO : List Nat → Option O) (cloneable : Bool) (delays : List Nat)
        (step : Nat → Attempt) (e : AnthropicError),
      (Client.execute decodeO cloneable delays step).result = .error e →
      e.isStreamSetup = false) ∧
    (∀ r e, Client.messages r = .reject e → e.isStreamSetup = false) ∧
    (∀ frames alive e, Item.fail e ∈ (pump frames alive).1 → e.isStreamSetup = false) := by
  refine ⟨fun r => rfl, parse_error_not_stream_setup, ?_, ?_, ?_⟩
  · intro O decodeO cloneable delays step e h
    cases cloneable with
    | true =>
      simp only [Client.execute, if_pos] at h
      exact backoffRetry_error_not_stream_setup _
        (fun i e2 h2 => attemptStep_error_not_stream_setup decodeO (step i) e2 h2)
        delays 0 e h
    | false =>
      simp only [Client.execute] at h
      exact process_response_error_not_stream_setup decodeO (step 0) e h
  · intro r e h
    by_cases hs : r.stream = some true
    · simp only [Client.messages, if_pos hs] at h
      have he : AnthropicError.invalidRequest
          "stream=true requests must use messages_stream" = e := by injection h
      exact he ▸ rfl
    · simp [Client.messages, if_neg hs] at h
  · intro frames alive e h
    rcases pump_fail_shape frames alive e h with ⟨er, rfl⟩ | rfl | ⟨m, rfl⟩ <;> rfl

/-! Properties of the error classifier for C2. -/

/-- Missing-or-null normalization of an optional free-form JSON field, as
serde reads an Option of serde_json::Value. -/
def jOptValue : Option Json → Option Json
  | none => none
  | some .null => none
  | some v => some v

/-- A required string field that decoded successfully was stored as exactly
that string. -/
theorem reqField_decodeString_inv (kvs : List (String × Json)) (k : String) (v : String)
    (h : reqField kvs k decodeString = some v) : jget kvs k = some (.str v) := by
  unfold reqField at h
  cases hj : jget kvs k with
  | none => rw [hj] at h; simp at h
  | some j =>
    rw [hj] at h
    simp only [Option.some_bind] at h
    cases j <;> simp [decodeString] at h
    rw [h]

/-- An optional free-form JSON field decodes to the missing-or-null
normalization of its stored value. -/
theorem optFieldD_value_inv (kvs : List (String × Json)) (k : String) (p : Option Json)
    (h : optFieldD kvs k (fun v => some v) = some p) : p = jOptValue (jget kvs k) := by
  unfold optFieldD at h
  cases hj : jget kvs k with
  | none => rw [hj] at h; simp at h; simp [jOptValue, h]
  | some j =>
    rw [hj] at h
    cases j <;> simp_all [jOptValue]

/-- A decoded ApiError carries exactly the fields of its envelope object:
message and type are the strings stored under those keys, and param and
code are the stored values with a missing or null entry read as None. -/
theorem fromJsonApiError_exact (kvs : List (String × Json)) (er : ApiError)
    (h : fromJsonApiError (.obj kvs) = some er) :
    jget kvs "message" = some (.str er.message) ∧
    jget kvs "type" = some (.str er.error_type) ∧
    er.param = jOptValue (jget kvs "param") ∧
    er.code = jOptValue (jget kvs "code") := by
  simp only [fromJsonApiError, Json.asObj] at h
  cases hm : reqField kvs "message" decodeString with
  | none => rw [hm] at h; simp at h
  | some m =>
  cases ht : reqField kvs "type" decodeString with
  | none => rw [hm, ht] at h; simp at h
  | some t =>
  cases hp : optFieldD kvs "param" (fun v => some v) with
  | none => rw [hm, ht, hp] at h; simp at h
  | some p =>
  cases hc : optFieldD kvs "code" (fun v => some v) with
  | none => rw [hm, ht, hp, hc] at h; simp at h
  | some c =>
    rw [hm, ht, hp, hc] at h
    simp only [Option.some.injEq] at h
    subst h
    exact ⟨reqField_decodeString_inv kvs "message" m hm,
           reqField_decodeString_inv kvs "type" t ht,
           optFieldD_value_inv kvs "param" p hp,
           optFieldD_value_inv kvs "code" c hc⟩

/-- C2: parse_error is a pure total classifier: for every status and body,
if the body parses as the standard error envelope, the result is the Api
error carrying exactly the envelope's message/type/param/code (the third
conjunct makes the exactness explicit); otherwise the result is
UnexpectedResponse carrying the raw status and the body decoded lossily as
text, the lossy decoding being total on malformed bytes. -/
theorem parse_error_classifies (status : Nat) (bytes : List Nat) :
    (∀ er, errorResponseFromSlice bytes = some er → parse_error status bytes = .api er.error) ∧
    (errorResponseFromSlice bytes = none →
      parse_error status bytes = .unexpectedResponse status (fromUtf8Lossy bytes)) ∧
    (∀ kvs er, fromJsonApiError (.obj kvs) = some er →
      jget kvs "message" = some (.str er.message) ∧
      jget kvs "type" = some (.str er.error_type) ∧
      er.param = jOptValue (jget kvs "param") ∧
      er.code = jOptValue (jget kvs "code")) := by
  refine ⟨?_, ?_, fun kvs er h => fromJsonApiError_exact kvs er h⟩
  · intro er h
    simp [parse_error, h]
  · intro h
    simp [parse_error, h]

/-- Witness for C2: classification of a concrete envelope body, a concrete
non-envelope body, and the exact fields of a concrete envelope object. -/
theorem parse_error_classifies_witness :
    parse_error 429 body429 = .api env429.error ∧
    parse_error 503 (asciiBytes "oops") =
      .unexpectedResponse 503 (fromUtf8Lossy (asciiBytes "oops")) ∧
    jget [("message", .str "rate limited"), ("type", .str "rate_limit_error")] "message" =
      some (.str env429.error.message) :=
  ⟨(parse_error_classifies 429 body429).1 env429 rfl,
   (parse_error_classifies 503 (asciiBytes "oops")).2.1 rfl,
   ((parse_error_classifies 429 body429).2.2
     [("message", .str "rate limited"), ("type", .str "rate_limit_error")] env429.error
     rfl).1⟩

/-! Properties of the streaming pump for C3 and C10. -/

/-- The data payload of a message_stop event frame. -/
def stopData : String := "\x7b\"type\":\"message_stop\"\x7d"

/-- Membership in the dropLast of a cons. -/
theorem mem_dropLast_cons {α : Type} {x : α} {l : List α} {it : α}
    (h : it ∈ (x :: l).dropLast) : it = x ∨ it ∈ l.dropLast := by
  cases l with
  | nil => simp [List.dropLast] at h
  | cons y ys =>
    simp only [List.dropLast] at h
    rcases List.mem_cons.mp h with h1 | h2
    · exact Or.inl h1
    · exact Or.inr h2

/-- Counterexample frames for C3: two connection-level errors followed by a
parseable event frame. -/
def c3Frames : List Frame :=
  [.err (.other "a"), .err (.other "b"), .ev (.message "message_stop" stopData)]

/-- Counterexample to C3: a connection-level error does not terminate the
pump. With two such errors before a good frame and a live consumer, the
consumer sees two failure items and then a parsed event, so the sequence
holds more than one failure item and a failure item that is not last. -/
theorem stream_failure_not_last_counterexample :
    pump c3Frames 3 =
      ([.fail (.invalidRequest "stream error: a"), .fail (.invalidRequest "stream error: b"),
        .ok .messageStop], 3) ∧
    (pump c3Frames 3).1.dropLast.any Item.isFail = true ∧
    (pump c3Frames 3).1.countP Item.isFail = 2 :=
  ⟨rfl, by decide, by decide⟩

/-- C3 as amended: the failures that terminate the pump are those of the
message-parse paths — a parsed API error frame or a decode failure — and
such a failure is always the last surfaced item; a connection-level error
is surfaced as an InvalidRequest failure but the sequence continues, so
every surfaced item before the last one is a parsed event or a
connection-level failure, never a parse failure. -/
theorem stream_parse_failures_always_last (frames : List Frame) (alive : Nat) :
    ∀ it ∈ (pump frames alive).1.dropLast, it.isParseFailure = false := by
  induction frames generalizing alive with
  | nil => intro it h; simp [pump] at h
  | cons f rest ih =>
    intro it h
    match f with
    | .ev .openEv =>
      simp only [pump] at h
      exact ih alive it h
    | .ev (.message event data) =>
      by_cases hping : event = "ping"
      · simp only [pump, if_pos hping] at h
        exact ih alive it h
      · cases hfr : frameResponse event data with
        | ok out =>
          cases alive with
          | zero => simp [pump, if_neg hping, hfr] at h
          | succ a =>
            simp only [pump, if_neg hping, hfr] at h
            rcases mem_dropLast_cons h with rfl | h2
            · rfl
            · exact ih a it h2
        | error e2 =>
          cases alive with
          | zero => simp [pump, if_neg hping, hfr] at h
          | succ a =>
            simp only [pump, if_neg hping, hfr] at h
            simp [List.dropLast] at h
    | .err .streamEnded => simp [pump, List.dropLast] at h
    | .err (.other msg) =>
      cases alive with
      | zero => simp [pump, List.dropLast] at h
      | succ a =>
        simp only [pump] at h
        rcases mem_dropLast_cons h with rfl | h2
        · rfl
        · exact ih a it h2

/-- Frames for the witness of the amended C3. -/
def c3wFrames : List Frame := [.err (.other "x"), .ev (.message "message_stop" stopData)]

/-- Witness for the amended C3: with a connection-level failure followed by
a parsed event, the non-last failure item is a connection-level one, not a
parse failure. -/
theorem stream_parse_failures_always_last_witness :
    (Item.fail (.invalidRequest "stream error: x")).isParseFailure = false :=
  stream_parse_failures_always_last c3wFrames 2 _
    (by
      rw [show (pump c3wFrames 2).1.dropLast =
        [Item.fail (.invalidRequest "stream error: x")] from rfl]
      exact List.mem_singleton.mpr rfl)

/-- Counterexample frames for C10: a delivered event, then an Open control
frame and a ping keep-alive, then another event frame. -/
def c10Frames : List Frame :=
  [.ev (.message "message_stop" stopData), .ev .openEv, .ev (.message "ping" "ka"),
   .ev (.message "message_stop" stopData)]

/-- Counterexample to C10: with the consumer dropped after one delivered
item, the pump still pulls three more frames (the open frame, the ping and
the next event frame) before it notices the drop and closes — more than one
frame-read after the drop. -/
theorem pump_drop_not_within_one_read_counterexample :
    pump c10Frames 1 = ([.ok .messageStop], 4) ∧
    ¬ ((pump c10Frames 1).2 ≤ (pump c10Frames 1).1.length + 1) :=
  ⟨rfl, by decide⟩

/-- C10 as amended: the pump only notices a dropped consumer at a frame on
which it touches the channel or breaks. When every frame is such a send
frame (no Open control frames, no ping keep-alives), the pump delivers at
most as many items as sends succeed before the drop and pulls at most one
frame beyond the delivered items, so the event source is closed within one
frame-read of the drop; keep-alive frames, as the counterexample shows,
are consumed without touching the channel and postpone the close. -/
theorem pump_drop_closes_within_one_send_frame (frames : List Frame) (alive : Nat)
    (h : ∀ f ∈ frames, f.isSendFrame = true) :
    (pump frames alive).2 ≤ (pump frames alive).1.length + 1 ∧
    (pump frames alive).1.length ≤ alive := by
  induction frames generalizing alive with
  | nil => simp [pump]
  | cons f rest ih =>
    have hf := h f (List.mem_cons_self f rest)
    have hrest : ∀ g ∈ rest, g.isSendFrame = true :=
      fun g hg => h g (List.mem_cons_of_mem f hg)
    match f with
    | .ev .openEv => simp [Frame.isSendFrame] at hf
    | .ev (.message event data) =>
      by_cases hping : event = "ping"
      · simp [Frame.isSendFrame, hping] at hf
      · cases hfr : frameResponse event data with
        | ok out =>
          cases alive with
          | zero => simp [pump, if_neg hping, hfr]
          | succ a =>
            simp only [pump, if_neg hping, hfr]
            obtain ⟨ih1, ih2⟩ := ih a hrest
            constructor <;> (simp only [List.length_cons]; omega)
        | error e2 =>
          cases alive with
          | zero => simp [pump, if_neg hping, hfr]
          | succ a => simp [pump, if_neg hping, hfr]
    | .err .streamEnded => simp [pump]
    | .err (.other msg) =>
      cases alive with
      | zero => simp [pump]
      | succ a =>
        simp only [pump]
        obtain ⟨ih1, ih2⟩ := ih a hrest
        constructor <;> (simp only [List.length_cons]; omega)

/-- Frames for the witness of the amended C10: every frame is a send
frame. -/
def c10wFrames : List Frame := [.err (.other "x"), .ev (.message "message_stop" stopData)]

/-- Witness for the amended C10: with only send frames and the consumer
already dropped, the pump delivers nothing and pulls at most one frame. -/
theorem pump_drop_closes_within_one_send_frame_witness :
    (pump c10wFrames 0).2 ≤ (pump c10wFrames 0).1.length + 1 ∧
    (pump c10wFrames 0).1.length ≤ 0 :=
  pump_drop_closes_within_one_send_frame c10wFrames 0 (by decide)

/-! Round-trip properties of the serde models, for C8. -/

/-- Every JSON value has positive size. -/
theorem jsonSize_pos (j : Json) : 1 ≤ jsonSize j := by
  cases j <;> simp [jsonSize]

/-- Lookup in a cons with the same key. -/
theorem jget_cons_self (k : String) (v : Json) (rest : List (String × Json)) :
    jget ((k, v) :: rest) k = some v := by
  simp [jget]

/-- Lookup in a cons with a different key. -/
theorem jget_cons_ne {k1 k2 : String} (h : k1 ≠ k2) (v : Json) (rest : List (String × Json)) :
    jget ((k1, v) :: rest) k2 = jget rest k2 := by
  simp [jget, h]

/-- Lookup in an append, found on the left. -/
theorem jget_append_left {l1 : List (String × Json)} {k : String} {v : Json}
    (l2 : List (String × Json)) (h : jget l1 k = some v) : jget (l1 ++ l2) k = some v := by
  induction l1 with
  | nil => simp [jget] at h
  | cons p rest ih =>
    obtain ⟨k1, v1⟩ := p
    by_cases hk : k1 = k
    · subst hk
      rw [jget_cons_self] at h
      simpa [jget] using h
    · rw [jget_cons_ne hk] at h
      simpa [jget, hk] using ih h

/-- Lookup in an append, absent on the left. -/
theorem jget_append_none {l1 : List (String × Json)} {k : String}
    (l2 : List (String × Json)) (h : jget l1 k = none) : jget (l1 ++ l2) k = jget l2 k := by
  induction l1 with
  | nil => simp
  | cons p rest ih =>
    obtain ⟨k1, v1⟩ := p
    by_cases hk : k1 = k
    · subst hk; rw [jget_cons_self] at h; exact absurd h (by simp)
    · rw [jget_cons_ne hk] at h
      simpa [jget, hk] using ih h

/-- Lookup of a skip-if-none optional field at its own key. -/
theorem jget_optField_self {α : Type} (k : String) (enc : α → Json) (o : Option α) :
    jget (optField k enc o) k = Option.map enc o := by
  cases o <;> simp [optField, jget]

/-- Lookup of a skip-if-none optional field at another key. -/
theorem jget_optField_ne {α : Type} {k1 k2 : String} (h : k1 ≠ k2) (enc : α → Json)
    (o : Option α) : jget (optField k1 enc o) k2 = none := by
  cases o <;> simp [optField, jget, h]

/-- Decode an Option field whose stored value is the skip-if-none encoding
of o: the result is exactly o whenever encoded values decode back and are
never null. -/
theorem optFieldD_of_jget {α : Type} {kvs : List (String × Json)} {k : String}
    (dec : Json → Option α) (o : Option α) (enc : α → Json)
    (h : jget kvs k = Option.map enc o)
    (hdec : ∀ a, o = some a → dec (enc a) = some a ∧ enc a ≠ .null) :
    optFieldD kvs k dec = some o := by
  cases o with
  | none =>
    replace h : jget kvs k = none := by simpa using h
    simp [optFieldD, h]
  | some a =>
    obtain ⟨hd, hn⟩ := hdec a rfl
    replace h : jget kvs k = some (enc a) := by simpa using h
    unfold optFieldD
    rw [h]
    cases henc : enc a
    case null => exact absurd henc hn
    all_goals (rw [henc] at hd; simp [hd])

/-- Decode an Option field whose stored value is the null-when-none
encoding of o: the result is exactly o whenever encoded values decode back
and are never null. -/
theorem optFieldD_of_encOptNull {α : Type} {kvs : List (String × Json)} {k : String}
    (dec : Json → Option α) (o : Option α) (enc : α → Json)
    (h : jget kvs k = some (encOptNull enc o))
    (hdec : ∀ a, o = some a → dec (enc a) = some a ∧ enc a ≠ .null) :
    optFieldD kvs k dec = some o := by
  cases o with
  | none =>
    simp only [encOptNull] at h
    simp [optFieldD, h]
  | some a =>
    obtain ⟨hd, hn⟩ := hdec a rfl
    simp only [encOptNull] at h
    unfold optFieldD
    rw [h]
    cases henc : enc a
    case null => exact absurd henc hn
    all_goals (rw [henc] at hd; simp [hd])

/-- Deserializing a serialized u32 returns the same value. -/
theorem decodeU32_roundtrip (n : U32) : decodeU32 (.num (.int n.val)) = some n := by
  show (if h : n.val < 4294967296 then some (⟨n.val, h⟩ : U32) else none) = some n
  rw [dif_pos n.isLt]

/-- Deserializing a serialized usize returns the same value. -/
theorem decodeUsize_roundtrip (n : Usize) : decodeUsize (.num (.int n.val)) = some n := by
  show (if h : n.val < 18446744073709551616 then some (⟨n.val, h⟩ : Usize) else none) = some n
  rw [dif_pos n.isLt]

/-- Role round-trips. -/
theorem role_roundtrip (r : Role) : decodeRole (encodeRole r) = some r := by
  cases r <;> rfl

/-- StopReason round-trips. -/
theorem stopReason_roundtrip (r : StopReason) : decodeStopReason (encodeStopReason r) = some r := by
  cases r <;> rfl

/-- ImageSource round-trips. -/
theorem imageSource_roundtrip (s : ImageSource) :
    decodeImageSource (encodeImageSource s) = some s := by
  cases s; rfl

/-- ToolChoice round-trips. -/
theorem toolChoice_roundtrip (t : ToolChoice) :
    fromJsonToolChoice (encodeToolChoice t) = some t := by
  cases t <;> rfl

/-- ThinkingConfig round-trips. -/
theorem thinkingConfig_roundtrip (t : ThinkingConfig) :
    fromJsonThinkingConfig (encodeThinkingConfig t) = some t := by
  cases t with
  | enabled b =>
    simp [fromJsonThinkingConfig, encodeThinkingConfig, Json.asObj, reqField, jget,
      decodeString, decodeU32_roundtrip]
  | disabled => rfl

/-- The fuelled ContentBlock and ToolResultContent deserializers invert the
serializers for every fuel at least the size of the encoded value. -/
theorem cbDecoders_roundtrip :
    ∀ fuel : Nat,
      (∀ b : ContentBlock, jsonSize (encodeContentBlock b) ≤ fuel →
        (cbDecoders fuel).1 (encodeContentBlock b) = some b) ∧
      (∀ c : ToolResultContent, jsonSize (encodeToolResultContent c) ≤ fuel →
        (cbDecoders fuel).2 (encodeToolResultContent c) = some c) := by
  intro fuel
  induction fuel with
  | zero =>
    constructor
    · intro b hb
      have := jsonSize_pos (encodeContentBlock b)
      omega
    · intro c hc
      have := jsonSize_pos (encodeToolResultContent c)
      omega
  | succ fuel ih =>
    obtain ⟨ihCB, ihTRC⟩ := ih
    constructor
    · intro b hb
      cases b with
      | text t => rfl
      | image s => cases s; rfl
      | toolUse i n inp => rfl
      | thinking t => rfl
      | redactedThinking d => rfl
      | toolResult tid ie c =>
        have hsize : jsonSize (encodeToolResultContent c) ≤ fuel := by
          cases ie <;>
            simp [encodeContentBlock, optField, jsonSize, jsonFieldsSize] at hb <;> omega
        have htrc := ihTRC c hsize
        cases ie with
        | none =>
          simp [cbDecoders, encodeContentBlock, optField, Json.asObj, reqField, jget,
            optFieldD, decodeString, htrc]
        | some flag =>
          simp [cbDecoders, encodeContentBlock, optField, Json.asObj, reqField, jget,
            optFieldD, decodeString, decodeBool, htrc]
    · intro c hc
      cases c with
      | text s => rfl
      | blocks bs =>
        suffices h : ∀ bs2 : List ContentBlock, jsonListSize (encodeContentBlockList bs2) ≤ fuel →
            decodeElems (cbDecoders fuel).1 (encodeContentBlockList bs2) = some bs2 by
          have hsz : jsonListSize (encodeContentBlockList bs) ≤ fuel := by
            simp [encodeToolResultContent, jsonSize] at hc
            omega
          simp [cbDecoders, encodeToolResultContent, h bs hsz]
        intro bs2
        induction bs2 with
        | nil => intro _; rfl
        | cons b bs2 ihl =>
          intro hsz
          have h1 : jsonSize (encodeContentBlock b) ≤ fuel := by
            simp [encodeContentBlockList, jsonListSize] at hsz
            omega
          have h2 : jsonListSize (encodeContentBlockList bs2) ≤ fuel := by
            simp [encodeContentBlockList, jsonListSize] at hsz
            omega
          simp [encodeContentBlockList, decodeElems, ihCB b h1, ihl h2]

/-- ContentBlock round-trips. -/
theorem contentBlock_roundtrip (b : ContentBlock) :
    fromJsonContentBlock (encodeContentBlock b) = some b :=
  (cbDecoders_roundtrip (jsonSize (encodeContentBlock b))).1 b le_rfl

/-- ToolResultContent round-trips. -/
theorem toolResultContent_roundtrip (c : ToolResultContent) :
    fromJsonToolResultContent (encodeToolResultContent c) = some c :=
  (cbDecoders_roundtrip (jsonSize (encodeToolResultContent c))).2 c le_rfl

/-- Content block lists round-trip elementwise. -/
theorem contentBlockList_roundtrip (bs : List ContentBlock) :
    decodeElems fromJsonContentBlock (encodeContentBlockList bs) = some bs := by
  induction bs with
  | nil => rfl
  | cons b bs ih => simp [encodeContentBlockList, decodeElems, contentBlock_roundtrip b, ih]

/-- Content block lists round-trip through decodeList. -/
theorem decodeList_contentBlocks (bs : List ContentBlock) :
    decodeList fromJsonContentBlock (.arr (encodeContentBlockList bs)) = some bs := by
  simp [decodeList, contentBlockList_roundtrip bs]

/-- Message round-trips. -/
theorem message_roundtrip (m : Message) : fromJsonMessage (encodeMessage m) = some m := by
  obtain ⟨role, content⟩ := m
  have h1 : reqField [("role", encodeRole role), ("content", .arr (encodeContentBlockList content))]
      "role" decodeRole = some role := by
    simp [reqField, jget, role_roundtrip]
  have h2 : reqField [("role", encodeRole role), ("content", .arr (encodeContentBlockList content))]
      "content" (decodeList fromJsonContentBlock) = some content := by
    simp [reqField, jget, decodeList_contentBlocks]
  simp [fromJsonMessage, encodeMessage, Json.asObj, h1, h2]

/-- Message lists round-trip elementwise. -/
theorem messageList_roundtrip (ms : List Message) :
    decodeElems fromJsonMessage (ms.map encodeMessage) = some ms := by
  induction ms with
  | nil => rfl
  | cons m ms ih => simp [decodeElems, message_roundtrip m, ih]

/-- SystemPrompt round-trips. -/
theorem systemPrompt_roundtrip (s : SystemPrompt) :
    fromJsonSystemPrompt (encodeSystemPrompt s) = some s := by
  cases s with
  | text t => rfl
  | blocks bs => simp [fromJsonSystemPrompt, encodeSystemPrompt, contentBlockList_roundtrip bs]

/-- Metadata round-trips. -/
theorem metadata_roundtrip (m : Metadata) : fromJsonMetadata (encodeMetadata m) = some m := by
  obtain ⟨uid⟩ := m
  cases uid <;> rfl

/-- Tool round-trips. -/
theorem tool_roundtrip (t : Tool) : fromJsonTool (encodeTool t) = some t := by
  obtain ⟨n, d, s⟩ := t
  rfl

/-- Tool lists round-trip elementwise. -/
theorem toolList_roundtrip (ts : List Tool) :
    decodeElems fromJsonTool (ts.map encodeTool) = some ts := by
  induction ts with
  | nil => rfl
  | cons t ts ih => simp [decodeElems, tool_roundtrip t, ih]

/-- String lists round-trip elementwise. -/
theorem stringList_roundtrip (l : List String) :
    decodeElems decodeString (l.map Json.str) = some l := by
  induction l with
  | nil => rfl
  | cons s l ih => simp [decodeElems, decodeString, ih]

/-- CacheCreation round-trips. -/
theorem cacheCreation_roundtrip (c : CacheCreation) :
    fromJsonCacheCreation (encodeCacheCreation c) = some c := by
  obtain ⟨a, b⟩ := c
  simp [fromJsonCacheCreation, encodeCacheCreation, Json.asObj, defField, jget,
    decodeU32_roundtrip]

/-- Lookup at the key of a leading skip-if-none segment, when the key does
not occur later. -/
theorem jget_optField_append {α : Type} {k : String} (enc : α → Json) (o : Option α)
    {l2 : List (String × Json)} (h2 : jget l2 k = none) :
    jget (optField k enc o ++ l2) k = Option.map enc o := by
  cases o with
  | none => simpa [optField] using h2
  | some a => simp [optField, jget]

/-- Lookup skips a leading skip-if-none segment with another key. -/
theorem jget_optField_append_ne {α : Type} {k1 k2 : String} (h : k1 ≠ k2) (enc : α → Json)
    (o : Option α) (l2 : List (String × Json)) :
    jget (optField k1 enc o ++ l2) k2 = jget l2 k2 := by
  cases o <;> simp [optField, jget, h]

/-- MessageDeltaUsage round-trips. -/
theorem messageDeltaUsage_roundtrip (u : MessageDeltaUsage) :
    fromJsonMessageDeltaUsage (encodeMessageDeltaUsage u) = some u := by
  obtain ⟨ot⟩ := u
  simp [fromJsonMessageDeltaUsage, encodeMessageDeltaUsage, Json.asObj, reqField, jget,
    decodeU32_roundtrip]

/-- ContentBlockDelta round-trips. -/
theorem contentBlockDelta_roundtrip (d : ContentBlockDelta) :
    fromJsonContentBlockDelta (encodeContentBlockDelta d) = some d := by
  cases d <;> rfl

/-- MessageDelta round-trips. -/
theorem messageDelta_roundtrip (d : MessageDelta) :
    fromJsonMessageDelta (encodeMessageDelta d) = some d := by
  obtain ⟨sr, ss⟩ := d
  have hsrD : optFieldD [("stop_reason", encOptNull encodeStopReason sr),
      ("stop_sequence", encOptNull Json.str ss)] "stop_reason" decodeStopReason = some sr :=
    optFieldD_of_encOptNull decodeStopReason sr encodeStopReason (by simp [jget])
      (fun a _ => ⟨stopReason_roundtrip a, by cases a <;> simp [encodeStopReason]⟩)
  have hssD : optFieldD [("stop_reason", encOptNull encodeStopReason sr),
      ("stop_sequence", encOptNull Json.str ss)] "stop_sequence" decodeString = some ss :=
    optFieldD_of_encOptNull decodeString ss Json.str (by simp [jget])
      (fun a _ => ⟨rfl, by simp⟩)
  simp [fromJsonMessageDelta, encodeMessageDelta, Json.asObj, hsrD, hssD]

/-- Usage round-trips. -/
theorem usage_roundtrip (u : Usage) : fromJsonUsage (encodeUsage u) = some u := by
  obtain ⟨it, ot, cc, cr, c, st⟩ := u
  have hstD : optFieldD (usageFields ⟨it, ot, cc, cr, c, st⟩) "service_tier" decodeString =
      some st :=
    optFieldD_of_jget decodeString st Json.str
      (by simp +decide [usageFields, List.cons_append, List.nil_append, jget_cons_ne,
        jget_optField_self])
      (fun a _ => ⟨rfl, by simp⟩)
  simp only [encodeUsage, fromJsonUsage, Json.asObj, hstD]
  simp +decide [usageFields, List.cons_append, List.nil_append, reqField, defField, jget,
    decodeU32_roundtrip, cacheCreation_roundtrip]

/-- MessagesResponse round-trips. -/
theorem messagesResponse_roundtrip (r : MessagesResponse) :
    fromJsonMessagesResponse (encodeMessagesResponse r) = some r := by
  obtain ⟨id, ty, role, content, model, sr, ss, usage⟩ := r
  have hsrD : optFieldD
      [("id", Json.str id), ("type", .str ty), ("role", encodeRole role),
       ("content", .arr (encodeContentBlockList content)), ("model", .str model),
       ("stop_reason", encOptNull encodeStopReason sr),
       ("stop_sequence", encOptNull Json.str ss), ("usage", encodeUsage usage)]
      "stop_reason" decodeStopReason = some sr :=
    optFieldD_of_encOptNull decodeStopReason sr encodeStopReason (by simp +decide [jget])
      (fun a _ => ⟨stopReason_roundtrip a, by cases a <;> simp [encodeStopReason]⟩)
  have hssD : optFieldD
      [("id", Json.str id), ("type", .str ty), ("role", encodeRole role),
       ("content", .arr (encodeContentBlockList content)), ("model", .str model),
       ("stop_reason", encOptNull encodeStopReason sr),
       ("stop_sequence", encOptNull Json.str ss), ("usage", encodeUsage usage)]
      "stop_sequence" decodeString = some ss :=
    optFieldD_of_encOptNull decodeString ss Json.str (by simp +decide [jget])
      (fun a _ => ⟨rfl, by simp⟩)
  simp +decide [fromJsonMessagesResponse, encodeMessagesResponse, Json.asObj, reqField, jget,
    decodeString, role_roundtrip, decodeList_contentBlocks, usage_roundtrip, hsrD, hssD,
    decodeList, contentBlockList_roundtrip]

/-- MessagesStreamEvent round-trips. -/
theorem messagesStreamEvent_roundtrip (ev : MessagesStreamEvent) :
    fromJsonMessagesStreamEvent (encodeMessagesStreamEvent ev) = some ev := by
  cases ev with
  | messageStart m =>
    simp +decide [encodeMessagesStreamEvent, fromJsonMessagesStreamEvent, Json.asObj,
      reqField, jget, decodeString, message_roundtrip]
  | contentBlockStart i cb =>
    simp +decide [encodeMessagesStreamEvent, fromJsonMessagesStreamEvent, Json.asObj,
      reqField, jget, decodeString, decodeUsize_roundtrip, contentBlock_roundtrip]
  | contentBlockDelta i d =>
    simp +decide [encodeMessagesStreamEvent, fromJsonMessagesStreamEvent, Json.asObj,
      reqField, jget, decodeString, decodeUsize_roundtrip, contentBlockDelta_roundtrip]
  | contentBlockStop i =>
    simp +decide [encodeMessagesStreamEvent, fromJsonMessagesStreamEvent, Json.asObj,
      reqField, jget, decodeString, decodeUsize_roundtrip]
  | messageDelta d u =>
    simp +decide [encodeMessagesStreamEvent, fromJsonMessagesStreamEvent, Json.asObj,
      reqField, jget, decodeString, messageDelta_roundtrip, messageDeltaUsage_roundtrip]
  | messageStop => rfl

/-- MessagesRequest round-trips whenever its floating-point fields are
finite (a non-finite temperature or top_p serializes as null and reads back
as None). -/
theorem messagesRequest_roundtrip (r : MessagesRequest)
    (htemp : ∀ f, r.temperature = some f → f.isFinite = true)
    (htopp : ∀ f, r.top_p = some f → f.isFinite = true) :
    fromJsonMessagesRequest (encodeMessagesRequest r) = some r := by
  obtain ⟨model, messages, max_tokens, sys, meta, stops, temp, topp, topk, stream, tools,
    toolc, think⟩ := r
  have hmodel : reqField (messagesRequestFields ⟨model, messages, max_tokens, sys, meta,
      stops, temp, topp, topk, stream, tools, toolc, think⟩) "model" decodeString =
      some model := by
    rw [reqField, show jget (messagesRequestFields ⟨model, messages, max_tokens, sys, meta,
      stops, temp, topp, topk, stream, tools, toolc, think⟩) "model" = some (.str model) by
      simp +decide [messagesRequestFields, List.cons_append, List.nil_append,
        jget_cons_self]]
    rfl
  have hmsgs : reqField (messagesRequestFields ⟨model, messages, max_tokens, sys, meta,
      stops, temp, topp, topk, stream, tools, toolc, think⟩) "messages"
      (decodeList fromJsonMessage) = some messages := by
    rw [reqField, show jget (messagesRequestFields ⟨model, messages, max_tokens, sys, meta,
      stops, temp, topp, topk, stream, tools, toolc, think⟩) "messages" =
      some (.arr (messages.map encodeMessage)) by
      simp +decide [messagesRequestFields, List.cons_append, List.nil_append,
        jget_cons_self, jget_cons_ne]]
    simpa [decodeList] using messageList_roundtrip messages
  have hmax : reqField (messagesRequestFields ⟨model, messages, max_tokens, sys, meta,
      stops, temp, topp, topk, stream, tools, toolc, think⟩) "max_tokens" decodeU32 =
      some max_tokens := by
    rw [reqField, show jget (messagesRequestFields ⟨model, messages, max_tokens, sys, meta,
      stops, temp, topp, topk, stream, tools, toolc, think⟩) "max_tokens" =
      some (.num (.int max_tokens.val)) by
      simp +decide [messagesRequestFields, List.cons_append, List.nil_append,
        jget_cons_self, jget_cons_ne]]
    exact decodeU32_roundtrip max_tokens
  have hsys : optFieldD (messagesRequestFields ⟨model, messages, max_tokens, sys, meta,
      stops, temp, topp, topk, stream, tools, toolc, think⟩) "system" fromJsonSystemPrompt =
      some sys :=
    optFieldD_of_jget fromJsonSystemPrompt sys encodeSystemPrompt
      (by simp +decide [messagesRequestFields, List.cons_append, List.nil_append,
        jget_cons_ne, jget_optField_append, jget_optField_append_ne, jget_optField_ne])
      (fun a _ => ⟨systemPrompt_roundtrip a, by cases a <;> simp [encodeSystemPrompt]⟩)
  have hmeta : optFieldD (messagesRequestFields ⟨model, messages, max_tokens, sys, meta,
      stops, temp, topp, topk, stream, tools, toolc, think⟩) "metadata" fromJsonMetadata =
      some meta :=
    optFieldD_of_jget fromJsonMetadata meta encodeMetadata
      (by simp +decide [messagesRequestFields, List.cons_append, List.nil_append,
        jget_cons_ne, jget_optField_append, jget_optField_append_ne, jget_optField_ne])
      (fun a _ => ⟨metadata_roundtrip a, by simp [encodeMetadata]⟩)
  have hstops : optFieldD (messagesRequestFields ⟨model, messages, max_tokens, sys, meta,
      stops, temp, topp, topk, stream, tools, toolc, think⟩) "stop_sequences"
      (decodeList decodeString) = some stops :=
    optFieldD_of_jget (decodeList decodeString) stops (fun l => .arr (l.map Json.str))
      (by simp +decide [messagesRequestFields, List.cons_append, List.nil_append,
        jget_cons_ne, jget_optField_append, jget_optField_append_ne, jget_optField_ne])
      (fun a _ => ⟨by simpa [decodeList] using stringList_roundtrip a, by simp⟩)
  have htempD : optFieldD (messagesRequestFields ⟨model, messages, max_tokens, sys, meta,
      stops, temp, topp, topk, stream, tools, toolc, think⟩) "temperature" decodeF64 =
      some temp :=
    optFieldD_of_jget decodeF64 temp encodeF64
      (by simp +decide [messagesRequestFields, List.cons_append, List.nil_append,
        jget_cons_ne, jget_optField_append, jget_optField_append_ne, jget_optField_ne])
      (fun a ha => by
        have hfin := htemp a ha
        cases a with
        | finite q => exact ⟨rfl, by simp [encodeF64]⟩
        | nan => simp [F64.isFinite] at hfin
        | inf => simp [F64.isFinite] at hfin
        | negInf => simp [F64.isFinite] at hfin)
  have htoppD : optFieldD (messagesRequestFields ⟨model, messages, max_tokens, sys, meta,
      stops, temp, topp, topk, stream, tools, toolc, think⟩) "top_p" decodeF64 =
      some topp :=
    optFieldD_of_jget decodeF64 topp encodeF64
      (by simp +decide [messagesRequestFields, List.cons_append, List.nil_append,
        jget_cons_ne, jget_optField_append, jget_optField_append_ne, jget_optField_ne])
      (fun a ha => by
        have hfin := htopp a ha
        cases a with
        | finite q => exact ⟨rfl, by simp [encodeF64]⟩
        | nan => simp [F64.isFinite] at hfin
        | inf => simp [F64.isFinite] at hfin
        | negInf => simp [F64.isFinite] at hfin)
  have htopk : optFieldD (messagesRequestFields ⟨model, messages, max_tokens, sys, meta,
      stops, temp, topp, topk, stream, tools, toolc, think⟩) "top_k" decodeU32 =
      some topk :=
    optFieldD_of_jget decodeU32 topk (fun n => .num (.int n.val))
      (by simp +decide [messagesRequestFields, List.cons_append, List.nil_append,
        jget_cons_ne, jget_optField_append, jget_optField_append_ne, jget_optField_ne])
      (fun a _ => ⟨decodeU32_roundtrip a, by simp⟩)
  have hstream : optFieldD (messagesRequestFields ⟨model, messages, max_tokens, sys, meta,
      stops, temp, topp, topk, stream, tools, toolc, think⟩) "stream" decodeBool =
      some stream :=
    optFieldD_of_jget decodeBool stream Json.bool
      (by simp +decide [messagesRequestFields, List.cons_append, List.nil_append,
        jget_cons_ne, jget_optField_append, jget_optField_append_ne, jget_optField_ne])
      (fun a _ => ⟨rfl, by simp⟩)
  have htools : optFieldD (messagesRequestFields ⟨model, messages, max_tokens, sys, meta,
      stops, temp, topp, topk, stream, tools, toolc, think⟩) "tools"
      (decodeList fromJsonTool) = some tools :=
    optFieldD_of_jget (decodeList fromJsonTool) tools (fun l => .arr (l.map encodeTool))
      (by simp +decide [messagesRequestFields, List.cons_append, List.nil_append,
        jget_cons_ne, jget_optField_append, jget_optField_append_ne, jget_optField_ne])
      (fun a _ => ⟨by simpa [decodeList] using toolList_roundtrip a, by simp⟩)
  have htc : optFieldD (messagesRequestFields ⟨model, messages, max_tokens, sys, meta,
      stops, temp, topp, topk, stream, tools, toolc, think⟩) "tool_choice"
      fromJsonToolChoice = some toolc :=
    optFieldD_of_jget fromJsonToolChoice toolc encodeToolChoice
      (by simp +decide [messagesRequestFields, List.cons_append, List.nil_append,
        jget_cons_ne, jget_optField_append, jget_optField_append_ne, jget_optField_ne])
      (fun a _ => ⟨toolChoice_roundtrip a, by cases a <;> simp [encodeToolChoice]⟩)
  have hthink : optFieldD (messagesRequestFields ⟨model, messages, max_tokens, sys, meta,
      stops, temp, topp, topk, stream, tools, toolc, think⟩) "thinking"
      fromJsonThinkingConfig = some think :=
    optFieldD_of_jget fromJsonThinkingConfig think encodeThinkingConfig
      (by simp +decide [messagesRequestFields, List.cons_append, List.nil_append,
        jget_cons_ne, jget_optField_append, jget_optField_append_ne, jget_optField_ne,
        jget_optField_self])
      (fun a _ => ⟨thinkingConfig_roundtrip a, by cases a <;> simp [encodeThinkingConfig]⟩)
  simp only [encodeMessagesRequest, fromJsonMessagesRequest, Json.asObj, hmodel, hmsgs,
    hmax, hsys, hmeta, hstops, htempD, htoppD, htopk, hstream, htools, htc, hthink]

/-- C8 as amended: serializing then deserializing any value of the
request/response/event record types or their component types yields the
original value, with one proviso forced by the counterexample: the
request's floating-point fields (temperature, top_p) must be finite, since
serde_json writes a non-finite double as null, which reads back as None. -/
theorem serde_roundtrip :
    (∀ r : MessagesRequest,
      (∀ f, r.temperature = some f → f.isFinite = true) →
      (∀ f, r.top_p = some f → f.isFinite = true) →
      fromJsonMessagesRequest (encodeMessagesRequest r) = some r) ∧
    (∀ r : MessagesResponse, fromJsonMessagesResponse (encodeMessagesResponse r) = some r) ∧
    (∀ ev : MessagesStreamEvent,
      fromJsonMessagesStreamEvent (encodeMessagesStreamEvent ev) = some ev) ∧
    (∀ b : ContentBlock, fromJsonContentBlock (encodeContentBlock b) = some b) ∧
    (∀ c : ToolResultContent, fromJsonToolResultContent (encodeToolResultContent c) = some c) ∧
    (∀ m : Message, fromJsonMessage (encodeMessage m) = some m) ∧
    (∀ s : SystemPrompt, fromJsonSystemPrompt (encodeSystemPrompt s) = some s) ∧
    (∀ m : Metadata, fromJsonMetadata (encodeMetadata m) = some m) ∧
    (∀ t : Tool, fromJsonTool (encodeTool t) = some t) ∧
    (∀ t : ToolChoice, fromJsonToolChoice (encodeToolChoice t) = some t) ∧
    (∀ t : ThinkingConfig, fromJsonThinkingConfig (encodeThinkingConfig t) = some t) ∧
    (∀ u : Usage, fromJsonUsage (encodeUsage u) = some u) ∧
    (∀ c : CacheCreation, fromJsonCacheCreation (encodeCacheCreation c) = some c) ∧
    (∀ d : ContentBlockDelta, fromJsonContentBlockDelta (encodeContentBlockDelta d) = some d) ∧
    (∀ d : MessageDelta, fromJsonMessageDelta (encodeMessageDelta d) = some d) ∧
    (∀ u : MessageDeltaUsage,
      fromJsonMessageDeltaUsage (encodeMessageDeltaUsage u) = some u) ∧
    (∀ s : ImageSource, decodeImageSource (encodeImageSource s) = some s) ∧
    (∀ r : Role, decodeRole (encodeRole r) = some r) ∧
    (∀ sr : StopReason, decodeStopReason (encodeStopReason sr) = some sr) :=
  ⟨messagesRequest_roundtrip, messagesResponse_roundtrip, messagesStreamEvent_roundtrip,
   contentBlock_roundtrip, toolResultContent_roundtrip, message_roundtrip,
   systemPrompt_roundtrip, metadata_roundtrip, tool_roundtrip, toolChoice_roundtrip,
   thinkingConfig_roundtrip, usage_roundtrip, cacheCreation_roundtrip,
   contentBlockDelta_roundtrip, messageDelta_roundtrip, messageDeltaUsage_roundtrip,
   imageSource_roundtrip, role_roundtrip, stopReason_roundtrip⟩

/-- A request whose temperature is NaN. -/
def reqNaN : MessagesRequest :=
  ⟨"claude-3", [], ⟨16, by omega⟩, none, none, none, some .nan, none, none, none, none, none,
   none⟩

/-- Counterexample to C8 as stated: a request with temperature NaN does not
round-trip — serde_json serializes the NaN as null, and deserializing reads
the null back as None, so the decoded request differs from the original. -/
theorem serde_roundtrip_nan_counterexample :
    fromJsonMessagesRequest (encodeMessagesRequest reqNaN) =
      some { reqNaN with temperature := none } ∧
    fromJsonMessagesRequest (encodeMessagesRequest reqNaN) ≠ some reqNaN := by
  refine ⟨rfl, ?_⟩
  intro h
  rw [show fromJsonMessagesRequest (encodeMessagesRequest reqNaN) =
    some { reqNaN with temperature := none } from rfl] at h
  have h2 := Option.some.inj h
  have h3 := congrArg MessagesRequest.temperature h2
  simp [reqNaN] at h3

/-- A request with a finite temperature. -/
def reqFinite : MessagesRequest :=
  ⟨"claude-3", [⟨.user, [.text "hi"]⟩], ⟨16, by omega⟩, none, none, none, some (.finite 1),
   none, none, none, none, none, none⟩

/-- Witness for the amended C8: a concrete request with a finite
temperature round-trips, as do a concrete event and a concrete response
component. -/
theorem serde_roundtrip_witness :
    fromJsonMessagesRequest (encodeMessagesRequest reqFinite) = some reqFinite ∧
    fromJsonMessagesStreamEvent (encodeMessagesStreamEvent .messageStop) =
      some .messageStop :=
  ⟨serde_roundtrip.1 reqFinite
     (fun f hf => by cases Option.some.inj hf; rfl)
     (fun f hf => Option.noConfusion hf),
   serde_roundtrip.2.2.1 .messageStop⟩

/-- Witness for C9: the conjuncts instantiated at concrete inputs, the
hypotheses discharged by computation. -/
theorem messages_stream_total_and_no_stream_setup_errors_witness :
    Client.messages_stream reqStreamTrue = .ok { reqStreamTrue with stream := some true } ∧
    (parse_error 500 (asciiBytes "oops")).isStreamSetup = false ∧
    AnthropicError.deserialize.isStreamSetup = false ∧
    (AnthropicError.invalidRequest
      "stream=true requests must use messages_stream").isStreamSetup = false ∧
    (AnthropicError.invalidRequest "stream error: boom").isStreamSetup = false :=
  ⟨messages_stream_total_and_no_stream_setup_errors.1 reqStreamTrue,
   messages_stream_total_and_no_stream_setup_errors.2.1 500 (asciiBytes "oops"),
   messages_stream_total_and_no_stream_setup_errors.2.2.1 Nat decodeNat7 true []
     (fun _ => .resp 200 (asciiBytes "bad")) .deserialize rfl,
   messages_stream_total_and_no_stream_setup_errors.2.2.2.1 reqStreamTrue _ rfl,
   messages_stream_total_and_no_stream_setup_errors.2.2.2.2 [.err (.other "boom")] 1
     (.invalidRequest "stream error: boom") (List.mem_singleton.mpr rfl)⟩

end AnthropicRs
